import Mathlib

/-
Verification of the Elasticsearch bulk-request pipeline of this repository
(src/elasticsearch/bulk.rs).  The development shallowly embeds, directly from the
Rust source:

  * the `BulkRequestCommand` data type;
  * the streaming batch encoder `BulkReceiver` with its `std::io::Read`
    implementation (`BulkReceiver::read`) and `BulkReceiver::serialize_command`,
    at the granularity of the serialized character stream;
  * the worker pool (`Handler`), the producer API of `ElasticsearchBulkRequest`
    (`insert`/`update`/`delete_by_*` all funnel through `check_for_error` and
    `Handler::queue_command`), the worker thread body from
    `Handler::create_thread`, `Handler::send_error`, `Handler::check_for_error`,
    and `ElasticsearchBulkRequest::finish` / `Handler::wait_for_completion`,
    as a small-step state machine driven by an explicit schedule of events.

Machine integers are modelled as `Nat` (no arithmetic that could overflow is
performed on them in the embedded code).  Shared atomics become plain fields of
the global state, updated atomically by each event; the `in_flight` counter is
modelled as `Int` so that statements about it never going negative are
meaningful.  Panics and fallible operations are modelled with `Except`/explicit
`panicked` states.
-/

set_option maxRecDepth 10000
set_option maxHeartbeats 1000000

/-- Modelled from the spec: the document payload builder
(`crate::json::builder::JsonBuilder`) is outside the examined sources.  Per the
spec the document is "an owned, mutable structure of key/value fields" which is
rendered as one JSON object line, "augmented with the version-stamp fields".
We keep an ordered list of already-rendered key/value fragments; `add_u64` /
`add_u32` append a numeric field, `build` renders the JSON object. -/
structure JsonBuilder where
  fields : List (String × String)
deriving DecidableEq

namespace JsonBuilder

def add_u64 (b : JsonBuilder) (k : String) (v : Nat) : JsonBuilder :=
  ⟨b.fields ++ [(k, toString v)]⟩

def add_u32 (b : JsonBuilder) (k : String) (v : Nat) : JsonBuilder :=
  ⟨b.fields ++ [(k, toString v)]⟩

def renderField (kv : String × String) : String :=
  "\"" ++ kv.1 ++ "\":" ++ kv.2

def build (b : JsonBuilder) : String :=
  "\x7b" ++ String.intercalate "," (b.fields.map renderField) ++ "\x7d"

end JsonBuilder

/-- `BulkRequestCommand` from src/elasticsearch/bulk.rs lines 15-40.  `ctid` is
the `u64` produced by `item_pointer_to_u64`; `cmin`/`cmax` are `pg_sys::CommandId`
(`u32`); `xmin`/`xmax` are `u64`. -/
inductive BulkRequestCommand
  | insert (ctid : Nat) (cmin cmax : Nat) (xmin xmax : Nat) (builder : JsonBuilder)
  | update (ctid : Nat) (cmax : Nat) (xmax : Nat)
  | deleteByXmin (ctid : Nat) (xmin : Nat)
  | deleteByXmax (ctid : Nat) (xmax : Nat)
  | interrupt
  | done
deriving DecidableEq

/-- Modelled from the spec: `RefreshInterval`
(`crate::access_method::options::RefreshInterval`) is outside the examined
sources; the spec names the three refresh policies Immediate, Immediate-async
and Background. -/
inductive RefreshInterval
  | immediate
  | immediateAsync
  | background (interval : String)
deriving DecidableEq

/-- State of one `BulkReceiver` (src/elasticsearch/bulk.rs lines 216-225), the
streaming batch encoder.  `buffer` is the pending already-serialized character
stream; `bytes_out` counts characters already handed to the HTTP client;
`docs_out` is the per-batch document counter (an `Arc<AtomicUsize>` shared with
the worker, fresh per batch); `recv_attempts` is a ghost counter recording each
call of `receiver.recv_timeout` so that "the encoder attempted to receive a
command" is observable in the model. -/
structure BulkReceiver where
  terminated : Bool
  first : Option BulkRequestCommand
  in_flight : Nat
  bytes_out : Nat
  docs_out : Nat
  buffer : List Char
  batch_size : Nat
  recv_attempts : Nat
deriving DecidableEq

namespace BulkReceiver

/-- The serde_json rendering of `json!({"index": {"_id": ctid}})`
(bulk.rs lines 274-280). -/
def indexActionLine (ctid : Nat) : String :=
  "\x7b\"index\":\x7b\"_id\":" ++ toString ctid ++ "\x7d\x7d"

/-- The serde_json rendering of the update action header (bulk.rs lines 294-305). -/
def updateActionLine (ctid : Nat) : String :=
  "\x7b\"update\":\x7b\"_id\":" ++ toString ctid ++ ",\"retry_on_conflict\":1\x7d\x7d"

/-- The serde_json rendering of the update script line (bulk.rs lines 308-323). -/
def updateScriptLine (cmax xmax : Nat) : String :=
  "\x7b\"script\":\x7b\"source\":\"ctx._source.zdb_cmax=params.CMAX;ctx._source.zdb_xmax=params.XMAX;\",\"lang\":\"painless\",\"params\":\x7b\"CMAX\":"
    ++ toString cmax ++ ",\"XMAX\":" ++ toString xmax ++ "\x7d\x7d\x7d"

/-- `BulkReceiver::serialize_command` (bulk.rs lines 261-331).  The two shared
counters are bumped before the match, exactly as in the source; the four
unsupported variants hit `panic!("unsupported")`, modelled as `Except.error`. -/
def serialize_command (s : BulkReceiver) (command : BulkRequestCommand) :
    Except String BulkReceiver :=
  let s := { s with in_flight := s.in_flight + 1, docs_out := s.docs_out + 1 }
  match command with
  | .insert ctid cmin cmax xmin xmax builder =>
      let doc := ((((builder.add_u64 "zdb_ctid" ctid).add_u32 "zdb_cmin" cmin).add_u32
        "zdb_cmax" cmax).add_u64 "zdb_xmin" xmin).add_u64 "zdb_xmax" xmax
      .ok { s with buffer :=
        s.buffer ++ (indexActionLine ctid).data ++ ['\n'] ++ doc.build.data ++ ['\n'] }
  | .update ctid cmax xmax =>
      .ok { s with buffer :=
        s.buffer ++ (updateActionLine ctid).data ++ ['\n']
          ++ (updateScriptLine cmax xmax).data ++ ['\n'] }
  | .deleteByXmin _ _ => .error "unsupported"
  | .deleteByXmax _ _ => .error "unsupported"
  | .interrupt => .error "unsupported"
  | .done => .error "unsupported"

/-- `<BulkReceiver as std::io::Read>::read` (bulk.rs lines 228-257).  `bufCap`
is the length of the caller-supplied output buffer; `received` is the outcome of
`receiver.recv_timeout(333ms)` when it is consulted (`none` models a timeout or
a disconnected-and-empty channel).  Returns the number of characters written and
the successor state, or the error the read fails with. -/
def read (s : BulkReceiver) (bufCap : Nat) (received : Option BulkRequestCommand) :
    Except String (Nat × BulkReceiver) :=
  if s.terminated then .error "terminated"
  else
    match (match s.first with
           | some command => serialize_command { s with first := none } command
           | none => .ok s) with
    | .error e => .error e
    | .ok s1 =>
        match (if s1.docs_out < 10000 ∧ s1.bytes_out < s1.batch_size then
                 match received with
                 | some command =>
                     serialize_command { s1 with recv_attempts := s1.recv_attempts + 1 } command
                 | none => .ok { s1 with recv_attempts := s1.recv_attempts + 1 }
               else .ok s1) with
        | .error e => .error e
        | .ok s2 =>
            let amt := min bufCap s2.buffer.length
            .ok (amt, { s2 with buffer := s2.buffer.drop amt, bytes_out := s2.bytes_out + amt })

/-- The fresh reader built per batch in `Handler::create_thread`
(bulk.rs lines 445-456): empty buffer, zero counters, seeded `first`. -/
def fresh (first : BulkRequestCommand) (batch_size : Nat) : BulkReceiver :=
  { terminated := false, first := some first, in_flight := 0, bytes_out := 0,
    docs_out := 0, buffer := [], batch_size := batch_size, recv_attempts := 0 }

/-- One scheduler-visible step against a reader: a pull by the HTTP client
(with the recv oracle for that pull), or the shared termination flag being set
by another thread. -/
inductive ReaderEv
  | pull (bufCap : Nat) (received : Option BulkRequestCommand)
  | setTerminated
deriving DecidableEq

/-- A failed `read` aborts the surrounding HTTP request; the reader state at
that point is simply the last one (the batch is over).  A pull therefore either
advances the state or leaves it. -/
def readerStep (s : BulkReceiver) : ReaderEv → BulkReceiver
  | .pull bufCap received =>
      match read s bufCap received with
      | .ok r => r.2
      | .error _ => s
  | .setTerminated => { s with terminated := true }

def runReader (s : BulkReceiver) (evs : List ReaderEv) : BulkReceiver :=
  evs.foldl readerStep s

/-- The documents serialized so far, counting a still-pending `first` command. -/
def docsFirst (s : BulkReceiver) : Nat :=
  s.docs_out + (if s.first.isSome then 1 else 0)

/-- Total characters ever serialized into the current batch: already drained
plus still pending. -/
def serializedTotal (s : BulkReceiver) : Nat :=
  s.bytes_out + s.buffer.length

/-- The `docs_out` component after a pull (kept at its old value when the read
fails, since a failed read aborts the batch). -/
def readDocsOut (s : BulkReceiver) (bufCap : Nat) (received : Option BulkRequestCommand) : Nat :=
  match read s bufCap received with
  | .ok r => r.2.docs_out
  | .error _ => s.docs_out

/-- The (written count, state) result of a successful pull; dummy on failure. -/
def readOut (s : BulkReceiver) (bufCap : Nat) (received : Option BulkRequestCommand) :
    Nat × BulkReceiver :=
  match read s bufCap received with
  | .ok r => r
  | .error _ => (0, s)

/-- Whether a pull succeeds. -/
def readOk (s : BulkReceiver) (bufCap : Nat) (received : Option BulkRequestCommand) : Bool :=
  match read s bufCap received with
  | .ok _ => true
  | .error _ => false

theorem serialize_command_ok {s : BulkReceiver} {c : BulkRequestCommand} {t : BulkReceiver}
    (h : serialize_command s c = .ok t) :
    t.terminated = s.terminated ∧ t.first = s.first ∧ t.docs_out = s.docs_out + 1 ∧
    t.bytes_out = s.bytes_out ∧ t.batch_size = s.batch_size ∧
    t.recv_attempts = s.recv_attempts ∧ ∃ app, t.buffer = s.buffer ++ app := by
  cases c <;> simp only [serialize_command] at h
  case insert ctid cmin cmax xmin xmax builder =>
    injection h with h
    subst h
    refine ⟨rfl, rfl, rfl, rfl, rfl, rfl, ?_⟩
    show ∃ app, s.buffer ++ _ ++ _ ++ _ ++ _ = s.buffer ++ app
    simp only [List.append_assoc]
    exact ⟨_, rfl⟩
  case update ctid cmax xmax =>
    injection h with h
    subst h
    refine ⟨rfl, rfl, rfl, rfl, rfl, rfl, ?_⟩
    show ∃ app, s.buffer ++ _ ++ _ ++ _ ++ _ = s.buffer ++ app
    simp only [List.append_assoc]
    exact ⟨_, rfl⟩
  all_goals exact Except.noConfusion h

/-- Full characterization of a successful `read`: the batch-size field is
stable, a successful pull always leaves `first` consumed, documents grow by at
most one past `docsFirst`, the receive attempt happens exactly when the
document cap and the drained-byte cap are both unmet, and the written
characters are drained FIFO from the front of (pending buffer ++ newly
serialized characters). -/
theorem read_ok_spec {s : BulkReceiver} {cap : Nat} {rc : Option BulkRequestCommand}
    {n : Nat} {t : BulkReceiver} (h : read s cap rc = .ok (n, t)) :
    s.terminated = false ∧ t.terminated = false ∧ t.first = none ∧
    t.batch_size = s.batch_size ∧
    t.docs_out ≤ docsFirst s + 1 ∧
    (¬(docsFirst s < 10000 ∧ s.bytes_out < s.batch_size) → t.docs_out = docsFirst s) ∧
    t.recv_attempts = s.recv_attempts +
      (if docsFirst s < 10000 ∧ s.bytes_out < s.batch_size then 1 else 0) ∧
    t.bytes_out = s.bytes_out + n ∧
    (∃ app, t.buffer = (s.buffer ++ app).drop n ∧ n = min cap (s.buffer ++ app).length) := by
  unfold read at h
  split at h
  · exact absurd h (by simp)
  next hterm =>
    have hterm' : s.terminated = false := by
      revert hterm; cases s.terminated <;> simp
    split at h
    · exact absurd h (by simp)
    next s1 heq1 =>
      split at h
      · exact absurd h (by simp)
      next s2 heq2 =>
        -- h : .ok (amt, _) = .ok (n, t)
        rw [Except.ok.injEq, Prod.mk.injEq] at h
        obtain ⟨hn, ht⟩ := h
        -- facts about s1 from the first-command stage
        have hs1 : s1.terminated = false ∧ s1.first = none ∧
            s1.docs_out = docsFirst s ∧ s1.bytes_out = s.bytes_out ∧
            s1.batch_size = s.batch_size ∧ s1.recv_attempts = s.recv_attempts ∧
            ∃ app, s1.buffer = s.buffer ++ app := by
          cases hf : s.first with
          | none =>
              rw [hf] at heq1
              injection heq1 with heq1
              subst heq1
              refine ⟨hterm', hf, ?_, rfl, rfl, rfl, [], by simp⟩
              simp [docsFirst, hf]
          | some c =>
              rw [hf] at heq1
              obtain ⟨e1, e2, e3, e4, e5, e6, app, e7⟩ := serialize_command_ok heq1
              refine ⟨e1.trans hterm', e2, ?_, e4, e5, e6, app, e7⟩
              rw [e3]
              simp [docsFirst, hf]
        obtain ⟨g1, g2, g3, g4, g5, g6, app1, g7⟩ := hs1
        -- facts about s2 from the receive stage
        have hguard : (s1.docs_out < 10000 ∧ s1.bytes_out < s1.batch_size) ↔
            (docsFirst s < 10000 ∧ s.bytes_out < s.batch_size) := by
          rw [g3, g4, g5]
        have hs2 : s2.terminated = false ∧ s2.first = none ∧
            s2.docs_out ≤ docsFirst s + 1 ∧
            (¬(docsFirst s < 10000 ∧ s.bytes_out < s.batch_size) → s2.docs_out = docsFirst s) ∧
            s2.bytes_out = s.bytes_out ∧ s2.batch_size = s.batch_size ∧
            s2.recv_attempts = s.recv_attempts +
              (if docsFirst s < 10000 ∧ s.bytes_out < s.batch_size then 1 else 0) ∧
            ∃ app, s2.buffer = s.buffer ++ app := by
          split at heq2
          next hg =>
            rw [hguard] at hg
            cases rc with
            | none =>
                injection heq2 with heq2
                subst heq2
                refine ⟨g1, g2, ?_, fun hc => absurd hg hc, g4, g5, ?_, app1, g7⟩
                · show s1.docs_out ≤ docsFirst s + 1
                  omega
                · show s1.recv_attempts + 1 = _
                  rw [if_pos hg, g6]
            | some c2 =>
                obtain ⟨e1, e2, e3, e4, e5, e6, app2, e7⟩ := serialize_command_ok heq2
                refine ⟨e1.trans g1, e2.trans g2, ?_, fun hc => absurd hg hc,
                  e4.trans g4, e5.trans g5, ?_, app1 ++ app2, ?_⟩
                · rw [e3]
                  show s1.docs_out + 1 ≤ docsFirst s + 1
                  omega
                · rw [e6]
                  show s1.recv_attempts + 1 = _
                  rw [if_pos hg, g6]
                · rw [e7]
                  show s1.buffer ++ app2 = _
                  rw [g7, List.append_assoc]
          next hg =>
            rw [hguard] at hg
            injection heq2 with heq2
            subst heq2
            refine ⟨g1, g2, by omega, fun _ => g3, g4, g5, ?_, app1, g7⟩
            rw [if_neg hg, Nat.add_zero, g6]
        obtain ⟨k1, k2, k3, k4, k5, k6, k7, app, k8⟩ := hs2
        subst ht
        refine ⟨hterm', k1, k2, k6, k3, k4, k7, ?_, app, ?_, ?_⟩
        · show s2.bytes_out + (cap ⊓ s2.buffer.length) = s.bytes_out + n
          rw [hn, k5]
        · show s2.buffer.drop (cap ⊓ s2.buffer.length) = (s.buffer ++ app).drop n
          rw [hn, k8]
        · rw [← hn, k8]

/-- One scheduler step never pushes `docsFirst` past the 10000-document cap. -/
theorem docsFirst_readerStep {s : BulkReceiver} (e : ReaderEv) (h : docsFirst s ≤ 10000) :
    docsFirst (readerStep s e) ≤ 10000 := by
  cases e with
  | setTerminated => exact h
  | pull bufCap received =>
      show docsFirst (match read s bufCap received with
        | .ok r => r.2 | .error _ => s) ≤ 10000
      cases hr : read s bufCap received with
      | error e => exact h
      | ok r =>
          obtain ⟨n, t⟩ := r
          obtain ⟨_, _, hfirst, _, hle, heq, _, _, _⟩ := read_ok_spec hr
          have ht : docsFirst t = t.docs_out := by simp [docsFirst, hfirst]
          rw [ht]
          by_cases hg : docsFirst s < 10000 ∧ s.bytes_out < s.batch_size
          · omega
          · rw [heq hg]
            exact h

theorem docsFirst_runReader {s : BulkReceiver} (evs : List ReaderEv)
    (h : docsFirst s ≤ 10000) : docsFirst (runReader s evs) ≤ 10000 := by
  induction evs generalizing s with
  | nil => exact h
  | cons e evs ih => exact ih (docsFirst_readerStep e h)

end BulkReceiver

section ReceiverClaims

open BulkReceiver

/-- C9: For every `DeleteByXmin`, `DeleteByXmax`, `Interrupt`, or `Done`
command reaching `BulkReceiver::serialize_command`, serialization fails loudly
(the `panic!("unsupported")` arms, modelled as `Except.error "unsupported"`),
never returning a successfully (or partially) encoded state. -/
theorem c9_unsupported_commands_fail_loudly :
    ∀ (s : BulkReceiver) (ctid xmin xmax : Nat),
      serialize_command s (.deleteByXmin ctid xmin) = .error "unsupported" ∧
      serialize_command s (.deleteByXmax ctid xmax) = .error "unsupported" ∧
      serialize_command s .interrupt = .error "unsupported" ∧
      serialize_command s .done = .error "unsupported" :=
  fun _ _ _ _ => ⟨rfl, rfl, rfl, rfl⟩

/-- C5 counterexample: with the configured byte cap `batch_size = 5`, a single
pull on a freshly seeded encoder serializes a full insert command — far more
than 5 characters — because the byte cap is only compared against `bytes_out`
(characters already drained), not against what serialization will add.  The
claim "the total bytes serialized into the batch are at most the configured
byte cap" is therefore false at this input. -/
theorem c5_counterexample :
    (runReader (fresh (.insert 0 0 0 0 0 ⟨[]⟩) 5) [.pull 0 none]).batch_size = 5 ∧
    (runReader (fresh (.insert 0 0 0 0 0 ⟨[]⟩) 5) [.pull 0 none]).docs_out = 1 ∧
    5 < serializedTotal (runReader (fresh (.insert 0 0 0 0 0 ⟨[]⟩) 5) [.pull 0 none]) := by
  refine ⟨rfl, rfl, ?_⟩
  decide

/-- C5 amended: the document cap does hold — no reachable encoder state has
more than 10000 serialized documents — and the byte cap bounds when new
commands may be serialized rather than the serialized total: once at least
`batch_size` characters have been drained (and the seed command is consumed), a
pull serializes nothing further.  The serialized total may exceed `batch_size`
by the last command's rendering (see the counterexample). -/
theorem c5_batch_caps (first : BulkRequestCommand) (batch_size : Nat)
    (evs : List ReaderEv) :
    (runReader (fresh first batch_size) evs).docs_out ≤ 10000 ∧
    (∀ bufCap received,
      (runReader (fresh first batch_size) evs).first = none →
      (runReader (fresh first batch_size) evs).batch_size ≤
        (runReader (fresh first batch_size) evs).bytes_out →
      readDocsOut (runReader (fresh first batch_size) evs) bufCap received =
        (runReader (fresh first batch_size) evs).docs_out) := by
  constructor
  · have h := docsFirst_runReader (s := fresh first batch_size) evs (by simp [docsFirst, fresh])
    unfold docsFirst at h
    omega
  · intro bufCap received hfirst hbytes
    generalize runReader (fresh first batch_size) evs = s at *
    unfold readDocsOut
    cases hr : read s bufCap received with
    | error e => rfl
    | ok r =>
        obtain ⟨n, t⟩ := r
        obtain ⟨_, _, _, _, _, heq, _, _, _⟩ := read_ok_spec hr
        show t.docs_out = s.docs_out
        rw [heq (by unfold docsFirst; omega)]
        simp [docsFirst, hfirst]

/-- C5 witness: instantiating the amended cap theorem at a concrete encoder
state whose seed is consumed and whose drained count has reached the byte cap. -/
theorem c5_batch_caps_witness :
    readDocsOut (runReader (fresh (.insert 0 0 0 0 0 ⟨[]⟩) 0) [.pull 5 none]) 7
        (some (.update 1 2 3)) =
      (runReader (fresh (.insert 0 0 0 0 0 ⟨[]⟩) 0) [.pull 5 none]).docs_out :=
  (c5_batch_caps (.insert 0 0 0 0 0 ⟨[]⟩) 0 [.pull 5 none]).2 7 (some (.update 1 2 3))
    (by decide) (by decide)

/-- C6 counterexample: after a first pull that drains only 5 characters, the
pending buffer is non-empty and the termination flag is unset; the next pull
nevertheless attempts to receive from the queue (the ghost `recv_attempts`
counter increases) and serializes the received command.  The claim that a pull
"only otherwise" (buffer empty) attempts to receive the next command is false
at this input. -/
theorem c6_counterexample :
    (runReader (fresh (.insert 0 0 0 0 0 ⟨[]⟩) 1000) [.pull 5 none]).buffer.length ≠ 0 ∧
    (runReader (fresh (.insert 0 0 0 0 0 ⟨[]⟩) 1000) [.pull 5 none]).terminated = false ∧
    (runReader (fresh (.insert 0 0 0 0 0 ⟨[]⟩) 1000)
        [.pull 5 none, .pull 5 (some (.insert 1 0 0 0 0 ⟨[]⟩))]).recv_attempts =
      (runReader (fresh (.insert 0 0 0 0 0 ⟨[]⟩) 1000) [.pull 5 none]).recv_attempts + 1 ∧
    (runReader (fresh (.insert 0 0 0 0 0 ⟨[]⟩) 1000)
        [.pull 5 none, .pull 5 (some (.insert 1 0 0 0 0 ⟨[]⟩))]).docs_out =
      (runReader (fresh (.insert 0 0 0 0 0 ⟨[]⟩) 1000) [.pull 5 none]).docs_out + 1 := by
  refine ⟨?_, rfl, ?_, rfl⟩ <;> decide

/-- C6 amended: on every successful pull, the written characters are drained
FIFO from the front of (pending buffer ++ newly serialized characters) — so
pending bytes are emitted before new ones — but the pull attempts to receive a
next command exactly when the document and drained-byte caps are unmet,
regardless of whether the pending buffer is empty. -/
theorem c6_pull_order (s : BulkReceiver) (bufCap : Nat)
    (received : Option BulkRequestCommand) (hok : readOk s bufCap received = true) :
    (∃ app, (readOut s bufCap received).2.buffer =
        (s.buffer ++ app).drop (readOut s bufCap received).1 ∧
      (readOut s bufCap received).1 = min bufCap (s.buffer ++ app).length) ∧
    (readOut s bufCap received).2.recv_attempts = s.recv_attempts +
      (if docsFirst s < 10000 ∧ s.bytes_out < s.batch_size then 1 else 0) := by
  unfold readOk at hok
  unfold readOut
  cases hr : read s bufCap received with
  | error e => rw [hr] at hok; exact absurd hok (by simp)
  | ok r =>
      obtain ⟨n, t⟩ := r
      obtain ⟨_, _, _, _, _, _, hrecv, _, app, hbuf, hlen⟩ := read_ok_spec hr
      exact ⟨⟨app, hbuf, hlen⟩, hrecv⟩

/-- C6 witness: the amended pull-order theorem applied at a concrete state with
a non-empty pending buffer. -/
theorem c6_pull_order_witness :
    ((∃ app, (readOut (runReader (fresh (.insert 0 0 0 0 0 ⟨[]⟩) 1000) [.pull 5 none]) 5
          (some (.update 1 2 3))).2.buffer =
        ((runReader (fresh (.insert 0 0 0 0 0 ⟨[]⟩) 1000) [.pull 5 none]).buffer ++ app).drop
          (readOut (runReader (fresh (.insert 0 0 0 0 0 ⟨[]⟩) 1000) [.pull 5 none]) 5
            (some (.update 1 2 3))).1 ∧
      (readOut (runReader (fresh (.insert 0 0 0 0 0 ⟨[]⟩) 1000) [.pull 5 none]) 5
          (some (.update 1 2 3))).1 =
        min 5 ((runReader (fresh (.insert 0 0 0 0 0 ⟨[]⟩) 1000) [.pull 5 none]).buffer
          ++ app).length) ∧
    (readOut (runReader (fresh (.insert 0 0 0 0 0 ⟨[]⟩) 1000) [.pull 5 none]) 5
        (some (.update 1 2 3))).2.recv_attempts =
      (runReader (fresh (.insert 0 0 0 0 0 ⟨[]⟩) 1000) [.pull 5 none]).recv_attempts +
        (if docsFirst (runReader (fresh (.insert 0 0 0 0 0 ⟨[]⟩) 1000) [.pull 5 none]) < 10000 ∧
            (runReader (fresh (.insert 0 0 0 0 0 ⟨[]⟩) 1000) [.pull 5 none]).bytes_out <
              (runReader (fresh (.insert 0 0 0 0 0 ⟨[]⟩) 1000) [.pull 5 none]).batch_size
          then 1 else 0)) :=
  c6_pull_order (runReader (fresh (.insert 0 0 0 0 0 ⟨[]⟩) 1000) [.pull 5 none]) 5
    (some (.update 1 2 3)) (by decide)

end ReceiverClaims

/-
The worker-pool / coordinator state machine.  One global state carries the
shared channel contents, the shared atomics, every spawned worker thread's
local control state, and the producer's control state; one event is one
atomic action of the producer or of a worker, and an arbitrary interleaving is
an arbitrary event list.  An event whose enabling condition does not hold (a
blocked `recv`, a blocked bounded `send`, a call on a dead producer, an index
naming no worker) leaves the state unchanged — it simply has not happened yet.
-/

/-- How a worker thread's closure ended (bulk.rs lines 420-519): `normal` for
the `break`s that reach `active_threads.fetch_sub` (line 517), `failed` for the
early `return Handler::send_error(..)` (line 503) which skips that decrement,
`panicked` for a panic unwinding the thread (the `panic!("unsupported")` of
`serialize_command`). -/
inductive ExitKind
  | normal
  | failed
  | panicked
deriving DecidableEq

/-- Control state of one worker thread in the loop of `Handler::create_thread`:
`atLoopTop` is the top of the `loop` (with the not-yet-consumed
`initial_command` seed, if any); `streaming docsOut` is a batch in progress
with the `first` command of the current `BulkReceiver` still pending
serialization or already consumed and `docsOut` documents serialized so far;
`exited` is a finished thread. -/
inductive WorkerPhase
  | atLoopTop (seed : Option BulkRequestCommand)
  | streaming (first : Option BulkRequestCommand) (docsOut : Nat)
  | exited (kind : ExitKind)
deriving DecidableEq

/-- One worker thread: its control state and its `total_docs_out` accumulator,
which the thread returns and `wait_for_completion` sums at join time. -/
structure Worker where
  phase : WorkerPhase
  total_docs_out : Nat
deriving DecidableEq

/-- Outcome of `ElasticsearchBulkRequest::finish`. -/
inductive FinishResult
  | ok (total_docs : Nat)
  | err (message : String)
deriving DecidableEq

/-- Control state of the producer (the backend thread driving the
`ElasticsearchBulkRequest`): `running` before `finish`; `finishing nrequests`
inside `finish` after the `successful_requests` snapshot (bulk.rs line 82) and
the drop of the sender (line 541), while joins are pending; `finished` after
`finish` returned; `panicked` after a panic surfaced an error
(`check_for_error`, a failed join, or `wait_for_completion`'s own
`check_for_error`). -/
inductive Producer
  | running
  | finishing (nrequests : Nat)
  | finished (result : FinishResult)
  | panicked
deriving DecidableEq

/-- The arguments of `ElasticsearchBulkRequest::new` (bulk.rs lines 55-61). -/
structure Config where
  queue_size : Nat
  concurrency : Nat
  batch_size : Nat
  allow_refresh : Bool
  refresh_interval : RefreshInterval
deriving DecidableEq

/-- Global state of one `ElasticsearchBulkRequest` (coordinator + `Handler` +
spawned workers + the two crossbeam channels).  `queue` is the content of the
bounded command channel (capacity `queue_capacity`); `error_channel` the number
of queued entries of the bounded error channel (capacity `error_capacity`);
`terminatd` the shared `AtomicBool` (keeping the source's spelling);
`in_flight`, `active_threads`, `successful_requests` the shared atomics
(`in_flight` as `Int` so that non-negativity is a statement, not a typing
artifact); `interrupt_pending` the host's pending-interrupt flag consulted by
`check_for_error`; `total_docs` the `Handler`'s producer-local accepted-command
counter; `refresh_calls` a ghost counter of `refresh_index` invocations. -/
structure Handler where
  terminatd : Bool
  interrupt_pending : Bool
  queue : List BulkRequestCommand
  queue_capacity : Nat
  workers : List Worker
  in_flight : Int
  active_threads : Nat
  successful_requests : Nat
  error_channel : Nat
  error_capacity : Nat
  sender_dropped : Bool
  producer : Producer
  total_docs : Nat
  refresh_calls : Nat
  concurrency : Nat
  batch_size : Nat
  allow_refresh : Bool
  refresh_interval : RefreshInterval
deriving DecidableEq

/-- `ElasticsearchBulkRequest::new` / `Handler::new` (bulk.rs lines 55-76 and
341-370): the error channel is `bounded(concurrency)`, the command channel is
`bounded(10_000)` — the `_queue_size` argument is unused. -/
def Handler.new (cfg : Config) : Handler :=
  { terminatd := false, interrupt_pending := false, queue := [],
    queue_capacity := 10000, workers := [], in_flight := 0, active_threads := 0,
    successful_requests := 0, error_channel := 0, error_capacity := cfg.concurrency,
    sender_dropped := false, producer := .running, total_docs := 0, refresh_calls := 0,
    concurrency := cfg.concurrency, batch_size := cfg.batch_size,
    allow_refresh := cfg.allow_refresh, refresh_interval := cfg.refresh_interval }

/-- The commands `serialize_command` encodes without panicking. -/
def supportedCommand : BulkRequestCommand → Bool
  | .insert _ _ _ _ _ _ => true
  | .update _ _ _ => true
  | _ => false

/-- One scheduler-visible atomic action.  Workers are named by their index in
`workers` (the order of `Handler.threads`). -/
inductive Ev
  /-- A mutating producer call (`insert`/`update`/`delete_by_xmin`/
  `delete_by_xmax`, bulk.rs lines 132-194): `check_for_error`, then
  `Handler::queue_command`. -/
  | queueCommand (command : BulkRequestCommand)
  /-- The `terminate` closure (bulk.rs lines 119-126) being invoked. -/
  | terminateNow
  /-- The host raises its pending-interrupt flag. -/
  | interruptArrives
  /-- A worker at the loop top (bulk.rs lines 424-443): terminated-check, then
  seed consumption or a blocking `rx.recv()`. -/
  | getFirst (i : Nat)
  /-- The worker's in-flight HTTP body pull serializes the batch's pending
  `first` command (the first `read` of the fresh `BulkReceiver`). -/
  | serializeFirst (i : Nat)
  /-- A body pull receives one more command from the queue and serializes it. -/
  | recvSerialize (i : Nat)
  /-- The bulk HTTP call completes with `errors == false` (bulk.rs lines
  494-514). -/
  | submitOk (i : Nat)
  /-- The bulk HTTP call fails — transport error, unparsable or
  `errors == true` response, or a read interrupted by termination — taking the
  `send_error` path (bulk.rs lines 502-503, 522-535). -/
  | submitFail (i : Nat)
  /-- The producer calls `finish()` (bulk.rs lines 78-85): `check_for_error`,
  snapshot of `successful_requests`, drop of the sender. -/
  | callFinish
  /-- All joins of `wait_for_completion` complete (bulk.rs lines 537-557) and
  `finish` runs the refresh policy (lines 87-108); `refreshOk` tells whether a
  synchronous `refresh_index` call succeeds. -/
  | joinAll (refreshOk : Bool)
deriving DecidableEq

/-- `Handler::check_for_error` (bulk.rs lines 563-583): `try_recv` on the error
channel — on an error, `terminate()` then `panic!`; otherwise, if a host
interrupt is pending, `terminate()` then `check_for_interrupts!`.  Returns
`some s2` when the call panics (with the panicked state), `none` when it falls
through. -/
def checkForError (s : Handler) : Option Handler :=
  if 0 < s.error_channel then
    some { s with error_channel := s.error_channel - 1, terminatd := true,
                  producer := .panicked }
  else if s.interrupt_pending then
    some { s with terminatd := true, producer := .panicked }
  else none

/-- `Handler::create_thread` spawn (bulk.rs lines 395-396, 420-421): a worker
seeded with the triggering command; the thread immediately bumps
`active_threads`. -/
def spawnWorker (s : Handler) (command : BulkRequestCommand) : Handler :=
  { s with
    workers := s.workers ++ [{ phase := .atLoopTop (some command), total_docs_out := 0 }],
    active_threads := s.active_threads + 1,
    total_docs := s.total_docs + 1 }

/-- All workers have exited. -/
def allExitedB (s : Handler) : Bool :=
  s.workers.all fun w => match w.phase with
    | .exited _ => true
    | _ => false

/-- Some worker thread panicked (its join would re-raise). -/
def anyPanickedB (s : Handler) : Bool :=
  s.workers.any fun w => w.phase = .exited .panicked

/-- The sum the joins of `wait_for_completion` accumulate. -/
def sumTotals (s : Handler) : Nat :=
  (s.workers.map Worker.total_docs_out).sum

def step (s : Handler) : Ev → Handler
  | .queueCommand command =>
      -- insert/update/delete_by_*: no-ops unless the producer is still alive.
      if s.producer ≠ .running then s
      else
        match checkForError s with
        | some s2 => s2
        | none =>
            -- Handler::queue_command (bulk.rs lines 372-402)
            let nthreads := s.workers.length
            if nthreads = 0 ∨
                (nthreads < s.concurrency ∧ 10000 / s.concurrency < s.queue.length) then
              spawnWorker s command
            else if s.queue.length < s.queue_capacity then
              { s with queue := s.queue ++ [command], total_docs := s.total_docs + 1 }
            else s  -- bounded send blocks: the call has not completed yet
  | .terminateNow => { s with terminatd := true }
  | .interruptArrives => { s with interrupt_pending := true }
  | .getFirst i =>
      match s.workers.get? i with
      | some w =>
          match w.phase with
          | .atLoopTop seed =>
              if s.terminatd then
                -- loop-top break: the seed (if any) is discarded
                { s with workers := s.workers.set i { w with phase := .exited .normal },
                         active_threads := s.active_threads - 1 }
              else
                match seed with
                | some command =>
                    { s with workers :=
                        s.workers.set i { w with phase := .streaming (some command) 0 } }
                | none =>
                    match s.queue with
                    | command :: rest =>
                        { s with queue := rest,
                                 workers := s.workers.set i
                                   { w with phase := .streaming (some command) 0 } }
                    | [] =>
                        if s.sender_dropped then
                          -- recv fails: channel disconnected and drained
                          { s with workers :=
                              s.workers.set i { w with phase := .exited .normal },
                                   active_threads := s.active_threads - 1 }
                        else s  -- recv blocks
          | _ => s
      | none => s
  | .serializeFirst i =>
      match s.workers.get? i with
      | some w =>
          match w.phase with
          | .streaming (some command) docs =>
              if supportedCommand command then
                { s with workers :=
                    s.workers.set i { w with phase := .streaming none (docs + 1) },
                         in_flight := s.in_flight + 1 }
              else
                -- panic!("unsupported") after the two fetch_adds: the thread dies
                { s with workers := s.workers.set i { w with phase := .exited .panicked },
                         in_flight := s.in_flight + 1 }
          | _ => s
      | none => s
  | .recvSerialize i =>
      match s.workers.get? i with
      | some w =>
          match w.phase with
          | .streaming none docs =>
              if docs < 10000 then
                match s.queue with
                | command :: rest =>
                    if supportedCommand command then
                      { s with queue := rest,
                               workers :=
                                 s.workers.set i { w with phase := .streaming none (docs + 1) },
                               in_flight := s.in_flight + 1 }
                    else
                      { s with queue := rest,
                               workers := s.workers.set i { w with phase := .exited .panicked },
                               in_flight := s.in_flight + 1 }
                | [] => s  -- recv_timeout times out; nothing serialized
              else s
          | _ => s
      | none => s
  | .submitOk i =>
      match s.workers.get? i with
      | some w =>
          match w.phase with
          | .streaming none docs =>
              let s2 := { s with successful_requests := s.successful_requests + 1,
                                 in_flight := s.in_flight - docs }
              if docs = 0 then
                { s2 with workers := s2.workers.set i { w with phase := .exited .normal },
                          active_threads := s2.active_threads - 1 }
              else
                let w2 : Worker := { w with phase := .atLoopTop none,
                                            total_docs_out := w.total_docs_out + docs }
                { s2 with workers := s2.workers.set i w2 }
          | _ => s
      | none => s
  | .submitFail i =>
      match s.workers.get? i with
      | some w =>
          match w.phase with
          | .streaming _ _ =>
              if s.error_channel < s.error_capacity then
                { s with error_channel := s.error_channel + 1,
                         workers := s.workers.set i { w with phase := .exited .failed } }
              else s  -- the bounded error send blocks
          | _ => s
      | none => s
  | .callFinish =>
      if s.producer ≠ .running then s
      else
        match checkForError s with
        | some s2 => s2
        | none =>
            { s with producer := .finishing s.successful_requests, sender_dropped := true }
  | .joinAll refreshOk =>
      match s.producer with
      | .finishing nrequests =>
          if allExitedB s = false then s  -- some join still blocks
          else if anyPanickedB s = true then { s with producer := .panicked }
          else
            match checkForError s with
            | some s2 => s2
            | none =>
                let total := sumTotals s
                if 1 < nrequests ∨ s.allow_refresh = false then
                  match s.refresh_interval with
                  | .immediate =>
                      { s with refresh_calls := s.refresh_calls + 1,
                               producer := .finished
                                 (if refreshOk then .ok total else .err "refresh") }
                  | .immediateAsync =>
                      { s with refresh_calls := s.refresh_calls + 1,
                               producer := .finished (.ok total) }
                  | .background _ => { s with producer := .finished (.ok total) }
                else { s with producer := .finished (.ok total) }
      | _ => s

def run (cfg : Config) (evs : List Ev) : Handler :=
  evs.foldl step (Handler.new cfg)

/-- A minimal insert command, used by concrete runs. -/
def insCmd (n : Nat) : BulkRequestCommand := .insert n 0 0 0 0 ⟨[]⟩

/-- C10: the `queue_size` argument of `ElasticsearchBulkRequest::new` /
`Handler::new` is ignored: the bounded command channel always has capacity
exactly 10000 (`crossbeam::channel::bounded(10_000)`, bulk.rs line 352), the
constructed state does not depend on `queue_size` at all, and consequently no
behaviour of the pipeline does. -/
theorem c10_queue_size_ignored (cfg : Config) (queue_size : Nat) (evs : List Ev) :
    (Handler.new cfg).queue_capacity = 10000 ∧
    Handler.new { cfg with queue_size := queue_size } = Handler.new cfg ∧
    run { cfg with queue_size := queue_size } evs = run cfg evs :=
  ⟨rfl, rfl, rfl⟩

/-- C4 counterexample: `terminate_now()` sets the shared termination flag, no
error is queued, and a subsequent `insert` nevertheless enqueues its command
(here: spawns a worker seeded with it, `total_docs` incremented) — the
termination flag is never consulted by a mutating call, contradicting the
claim that a call aborts when "either" the Error Channel or the termination
flag signals failure. -/
theorem c4_counterexample :
    (run ⟨0, 1, 8388608, true, .immediate⟩ [.terminateNow]).terminatd = true ∧
    (run ⟨0, 1, 8388608, true, .immediate⟩ [.terminateNow]).error_channel = 0 ∧
    (run ⟨0, 1, 8388608, true, .immediate⟩ [.terminateNow]).producer = .running ∧
    (step (run ⟨0, 1, 8388608, true, .immediate⟩ [.terminateNow])
      (.queueCommand (insCmd 7))).total_docs = 1 ∧
    (step (run ⟨0, 1, 8388608, true, .immediate⟩ [.terminateNow])
      (.queueCommand (insCmd 7))).workers.length = 1 := by
  decide

/-- C4 amended: every mutating producer call first performs `check_for_error`:
a non-blocking check of the Error Channel and a check of the host's
pending-interrupt flag.  If an error is queued, or an interrupt is pending, the
call terminates the pipeline and panics (surfacing the error) without enqueuing
its command.  The shared termination flag itself is not consulted. -/
theorem c4_mutating_call_checks (s : Handler) (command : BulkRequestCommand)
    (hrun : s.producer = .running) :
    (0 < s.error_channel →
      step s (.queueCommand command) =
        { s with error_channel := s.error_channel - 1, terminatd := true,
                 producer := .panicked }) ∧
    (s.error_channel = 0 → s.interrupt_pending = true →
      step s (.queueCommand command) =
        { s with terminatd := true, producer := .panicked }) := by
  constructor
  · intro he
    simp only [step, checkForError, hrun, ne_eq, not_true_eq_false, if_false, if_pos he]
  · intro he hi
    have hne : ¬ 0 < s.error_channel := by omega
    simp only [step, checkForError, hrun, ne_eq, not_true_eq_false, if_false,
      if_neg hne, if_pos hi]

/-- C4 witness: the amended check theorem applied at a reachable state with one
queued error (a worker just failed), showing the call panics without enqueuing. -/
theorem c4_mutating_call_checks_witness :
    step (run ⟨0, 1, 8388608, true, .immediate⟩
        [.queueCommand (insCmd 1), .getFirst 0, .serializeFirst 0, .submitFail 0])
      (.queueCommand (insCmd 2)) =
      { run ⟨0, 1, 8388608, true, .immediate⟩
          [.queueCommand (insCmd 1), .getFirst 0, .serializeFirst 0, .submitFail 0] with
        error_channel :=
          (run ⟨0, 1, 8388608, true, .immediate⟩
            [.queueCommand (insCmd 1), .getFirst 0, .serializeFirst 0, .submitFail 0]).error_channel
            - 1,
        terminatd := true, producer := .panicked } :=
  (c4_mutating_call_checks
    (run ⟨0, 1, 8388608, true, .immediate⟩
      [.queueCommand (insCmd 1), .getFirst 0, .serializeFirst 0, .submitFail 0])
    (insCmd 2) (by decide)).1 (by decide)

/-- C2 counterexample: with concurrency 10000, two workers are spawned; worker
0 observes a failed bulk call, publishes one entry to the Error Channel and
exits — but the shared termination flag remains `false`, and the sibling
worker 1 afterwards initiates and completes a further (successful) bulk
request.  The claim that the failing worker "sets the shared termination flag"
and that "no sibling Worker initiates a further bulk request" is false on this
schedule. -/
theorem c2_counterexample :
    (run ⟨0, 10000, 8388608, true, .immediate⟩
      [.queueCommand (insCmd 1), .queueCommand (insCmd 2), .queueCommand (insCmd 3),
       .queueCommand (insCmd 4), .getFirst 0, .serializeFirst 0, .submitFail 0,
       .getFirst 1, .serializeFirst 1, .submitOk 1]).error_channel = 1 ∧
    (run ⟨0, 10000, 8388608, true, .immediate⟩
      [.queueCommand (insCmd 1), .queueCommand (insCmd 2), .queueCommand (insCmd 3),
       .queueCommand (insCmd 4), .getFirst 0, .serializeFirst 0, .submitFail 0,
       .getFirst 1, .serializeFirst 1, .submitOk 1]).terminatd = false ∧
    (run ⟨0, 10000, 8388608, true, .immediate⟩
      [.queueCommand (insCmd 1), .queueCommand (insCmd 2), .queueCommand (insCmd 3),
       .queueCommand (insCmd 4), .getFirst 0, .serializeFirst 0, .submitFail 0,
       .getFirst 1, .serializeFirst 1, .submitOk 1]).successful_requests = 1 ∧
    ((run ⟨0, 10000, 8388608, true, .immediate⟩
      [.queueCommand (insCmd 1), .queueCommand (insCmd 2), .queueCommand (insCmd 3),
       .queueCommand (insCmd 4), .getFirst 0, .serializeFirst 0, .submitFail 0,
       .getFirst 1, .serializeFirst 1, .submitOk 1]).workers.get? 0 =
      some ⟨.exited .failed, 0⟩) := by
  decide

/-- C2 amended: when a worker observes a transport failure or an
errors-reporting bulk response, it publishes exactly one entry to the Error
Channel and exits (skipping even the `active_threads` decrement); it does not
touch the shared termination flag — that flag is set later, by the producer's
`check_for_error` when it observes the error, or by an explicit `terminate`
call.  Sibling workers may meanwhile keep submitting requests. -/
theorem c2_worker_failure (s : Handler) (i : Nat) (w : Worker)
    (first : Option BulkRequestCommand) (docs : Nat)
    (hw : s.workers.get? i = some w) (hp : w.phase = .streaming first docs)
    (hcap : s.error_channel < s.error_capacity) :
    step s (.submitFail i) =
      { s with error_channel := s.error_channel + 1,
               workers := s.workers.set i { w with phase := .exited .failed } } ∧
    (step s (.submitFail i)).terminatd = s.terminatd ∧
    (step s (.submitFail i)).successful_requests = s.successful_requests ∧
    (step s (.submitFail i)).active_threads = s.active_threads := by
  have h1 : step s (.submitFail i) =
      { s with error_channel := s.error_channel + 1,
               workers := s.workers.set i { w with phase := .exited .failed } } := by
    simp only [step, hw, hp, if_pos hcap]
  exact ⟨h1, by rw [h1], by rw [h1], by rw [h1]⟩

/-- C2 witness: the amended worker-failure theorem applied on a concrete
two-worker schedule at the instant worker 0's bulk call fails. -/
theorem c2_worker_failure_witness :
    (step (run ⟨0, 10000, 8388608, true, .immediate⟩
        [.queueCommand (insCmd 1), .queueCommand (insCmd 2), .queueCommand (insCmd 3),
         .queueCommand (insCmd 4), .getFirst 0, .serializeFirst 0])
      (.submitFail 0)).terminatd =
      (run ⟨0, 10000, 8388608, true, .immediate⟩
        [.queueCommand (insCmd 1), .queueCommand (insCmd 2), .queueCommand (insCmd 3),
         .queueCommand (insCmd 4), .getFirst 0, .serializeFirst 0]).terminatd :=
  (c2_worker_failure
    (run ⟨0, 10000, 8388608, true, .immediate⟩
      [.queueCommand (insCmd 1), .queueCommand (insCmd 2), .queueCommand (insCmd 3),
       .queueCommand (insCmd 4), .getFirst 0, .serializeFirst 0])
    0 ⟨.streaming none 1, 0⟩ none 1 (by decide) (by decide) (by decide)).2.1

/-- C3 counterexample: policy Immediate, `allow_refresh = true`, concurrency 1.
The producer calls `finish()` while the lone worker has not yet submitted
anything, so the `successful_requests` snapshot taken at the top of `finish` is
0; during the drain the worker completes two successful bulk requests.  Overall
two bulk requests succeeded, yet no post-drain refresh call is issued — the
claim quantifies over requests that "succeeded overall" but the code decides on
the pre-drain snapshot. -/
theorem c3_counterexample :
    (run ⟨0, 1, 8388608, true, .immediate⟩
      [.queueCommand (insCmd 1), .queueCommand (insCmd 2),
       .callFinish, .getFirst 0, .serializeFirst 0, .submitOk 0,
       .getFirst 0, .serializeFirst 0, .submitOk 0, .getFirst 0,
       .joinAll true]).successful_requests = 2 ∧
    (run ⟨0, 1, 8388608, true, .immediate⟩
      [.queueCommand (insCmd 1), .queueCommand (insCmd 2),
       .callFinish, .getFirst 0, .serializeFirst 0, .submitOk 0,
       .getFirst 0, .serializeFirst 0, .submitOk 0, .getFirst 0,
       .joinAll true]).refresh_interval = .immediate ∧
    (run ⟨0, 1, 8388608, true, .immediate⟩
      [.queueCommand (insCmd 1), .queueCommand (insCmd 2),
       .callFinish, .getFirst 0, .serializeFirst 0, .submitOk 0,
       .getFirst 0, .serializeFirst 0, .submitOk 0, .getFirst 0,
       .joinAll true]).allow_refresh = true ∧
    (run ⟨0, 1, 8388608, true, .immediate⟩
      [.queueCommand (insCmd 1), .queueCommand (insCmd 2),
       .callFinish, .getFirst 0, .serializeFirst 0, .submitOk 0,
       .getFirst 0, .serializeFirst 0, .submitOk 0, .getFirst 0,
       .joinAll true]).refresh_calls = 0 ∧
    (run ⟨0, 1, 8388608, true, .immediate⟩
      [.queueCommand (insCmd 1), .queueCommand (insCmd 2),
       .callFinish, .getFirst 0, .serializeFirst 0, .submitOk 0,
       .getFirst 0, .serializeFirst 0, .submitOk 0, .getFirst 0,
       .joinAll true]).producer = .finished (.ok 2) := by
  decide

/-- `check_for_error` falls through when no error is queued and no interrupt is
pending. -/
theorem checkForError_none (s : Handler) (herr : s.error_channel = 0)
    (hint : s.interrupt_pending = false) : checkForError s = none := by
  unfold checkForError
  rw [herr, hint]
  simp

/-- C3 amended: with policy Immediate, `finish()` issues exactly one post-drain
refresh call if and only if the `successful_requests` snapshot taken at the
start of `finish` (before the drain) exceeds 1, or the refresh is forced
(`allow_refresh = false`); otherwise the refresh is skipped. -/
theorem c3_refresh_decision (s : Handler) (nrequests : Nat) (refreshOk : Bool)
    (hp : s.producer = .finishing nrequests)
    (hall : allExitedB s = true) (hpan : anyPanickedB s = false)
    (herr : s.error_channel = 0) (hint : s.interrupt_pending = false)
    (hri : s.refresh_interval = .immediate) :
    (step s (.joinAll refreshOk)).refresh_calls =
      s.refresh_calls + (if 1 < nrequests ∨ s.allow_refresh = false then 1 else 0) := by
  by_cases hcond : 1 < nrequests ∨ s.allow_refresh = false
  · simp only [step, hp, hall, hpan, checkForError_none s herr hint, hri, if_pos hcond]
    simp
  · simp only [step, hp, hall, hpan, checkForError_none s herr hint, hri, if_neg hcond]
    simp

/-- C3 witness: the refresh-decision theorem applied at the drained state of the
counterexample schedule (snapshot 0, not forced: no refresh issued). -/
theorem c3_refresh_decision_witness :
    (step (run ⟨0, 1, 8388608, true, .immediate⟩
        [.queueCommand (insCmd 1), .queueCommand (insCmd 2),
         .callFinish, .getFirst 0, .serializeFirst 0, .submitOk 0,
         .getFirst 0, .serializeFirst 0, .submitOk 0, .getFirst 0])
      (.joinAll true)).refresh_calls =
      (run ⟨0, 1, 8388608, true, .immediate⟩
        [.queueCommand (insCmd 1), .queueCommand (insCmd 2),
         .callFinish, .getFirst 0, .serializeFirst 0, .submitOk 0,
         .getFirst 0, .serializeFirst 0, .submitOk 0, .getFirst 0]).refresh_calls +
        (if 1 < 0 ∨ (run ⟨0, 1, 8388608, true, .immediate⟩
            [.queueCommand (insCmd 1), .queueCommand (insCmd 2),
             .callFinish, .getFirst 0, .serializeFirst 0, .submitOk 0,
             .getFirst 0, .serializeFirst 0, .submitOk 0, .getFirst 0]).allow_refresh = false
          then 1 else 0) :=
  c3_refresh_decision
    (run ⟨0, 1, 8388608, true, .immediate⟩
      [.queueCommand (insCmd 1), .queueCommand (insCmd 2),
       .callFinish, .getFirst 0, .serializeFirst 0, .submitOk 0,
       .getFirst 0, .serializeFirst 0, .submitOk 0, .getFirst 0])
    0 true (by decide) (by decide) (by decide) (by decide) (by decide) (by decide)


theorem checkForError_some {s s2 : Handler} (h : checkForError s = some s2) :
    s2.workers = s.workers ∧ s2.in_flight = s.in_flight ∧ s2.queue = s.queue ∧
    s2.total_docs = s.total_docs ∧ s2.producer = .panicked ∧ s2.terminatd = true ∧
    s2.sender_dropped = s.sender_dropped := by
  unfold checkForError at h
  split at h
  · injection h with h; subst h; exact ⟨rfl, rfl, rfl, rfl, rfl, rfl, rfl⟩
  · split at h
    · injection h with h; subst h; exact ⟨rfl, rfl, rfl, rfl, rfl, rfl, rfl⟩
    · exact Option.noConfusion h

theorem checkForError_none_iff {s : Handler} :
    checkForError s = none ↔ (s.error_channel = 0 ∧ s.interrupt_pending = false) := by
  unfold checkForError
  constructor
  · intro h
    split at h
    · exact Option.noConfusion h
    · split at h
      · exact Option.noConfusion h
      next h1 h2 =>
        refine ⟨by omega, ?_⟩
        revert h2; cases s.interrupt_pending <;> simp
  · intro ⟨h1, h2⟩
    rw [h1, h2]
    simp

/-- Spawn condition of `queue_command`. -/
def spawnCond (s : Handler) : Prop :=
  s.workers.length = 0 ∨
    (s.workers.length < s.concurrency ∧ 10000 / s.concurrency < s.queue.length)

instance (s : Handler) : Decidable (spawnCond s) := by unfold spawnCond; infer_instance

theorem step_shape_queueCommand (s : Handler) (c : BulkRequestCommand) :
    (¬ s.producer = .running ∧ step s (.queueCommand c) = s) ∨
    (∃ s2, s.producer = .running ∧ checkForError s = some s2 ∧
      step s (.queueCommand c) = s2) ∨
    (s.producer = .running ∧ checkForError s = none ∧ spawnCond s ∧
      step s (.queueCommand c) = spawnWorker s c) ∨
    (s.producer = .running ∧ checkForError s = none ∧ ¬ spawnCond s ∧
      s.queue.length < s.queue_capacity ∧
      step s (.queueCommand c) =
        { s with queue := s.queue ++ [c], total_docs := s.total_docs + 1 }) ∨
    (s.producer = .running ∧ checkForError s = none ∧ ¬ spawnCond s ∧
      ¬ s.queue.length < s.queue_capacity ∧ step s (.queueCommand c) = s) := by
  by_cases hp : s.producer = .running
  · have hne : ¬ s.producer ≠ .running := by simp [hp]
    cases hc : checkForError s with
    | some s2 =>
        refine Or.inr (Or.inl ⟨s2, hp, rfl, ?_⟩)
        simp only [step, if_neg hne, hc]
    | none =>
        by_cases hcond : spawnCond s
        · refine Or.inr (Or.inr (Or.inl ⟨hp, rfl, hcond, ?_⟩))
          unfold spawnCond at hcond
          simp only [step, if_neg hne, hc, if_pos hcond]
        · by_cases hlen : s.queue.length < s.queue_capacity
          · refine Or.inr (Or.inr (Or.inr (Or.inl ⟨hp, rfl, hcond, hlen, ?_⟩)))
            unfold spawnCond at hcond
            simp only [step, if_neg hne, hc, if_neg hcond, if_pos hlen]
          · refine Or.inr (Or.inr (Or.inr (Or.inr ⟨hp, rfl, hcond, hlen, ?_⟩)))
            unfold spawnCond at hcond
            simp only [step, if_neg hne, hc, if_neg hcond, if_neg hlen]
  · exact Or.inl ⟨hp, by simp only [step, if_pos hp]⟩

theorem step_shape_getFirst (s : Handler) (i : Nat) :
    (step s (.getFirst i) = s) ∨
    (∃ w seed, s.workers.get? i = some w ∧ w.phase = .atLoopTop seed ∧
      s.terminatd = true ∧
      step s (.getFirst i) =
        { s with workers := s.workers.set i { w with phase := .exited .normal },
                 active_threads := s.active_threads - 1 }) ∨
    (∃ w c, s.workers.get? i = some w ∧ w.phase = .atLoopTop (some c) ∧
      s.terminatd = false ∧
      step s (.getFirst i) =
        { s with workers := s.workers.set i { w with phase := .streaming (some c) 0 } }) ∨
    (∃ w c rest, s.workers.get? i = some w ∧ w.phase = .atLoopTop none ∧
      s.terminatd = false ∧ s.queue = c :: rest ∧
      step s (.getFirst i) =
        { s with queue := rest,
                 workers := s.workers.set i { w with phase := .streaming (some c) 0 } }) ∨
    (∃ w, s.workers.get? i = some w ∧ w.phase = .atLoopTop none ∧
      s.terminatd = false ∧ s.queue = [] ∧ s.sender_dropped = true ∧
      step s (.getFirst i) =
        { s with workers := s.workers.set i { w with phase := .exited .normal },
                 active_threads := s.active_threads - 1 }) := by
  cases hw : s.workers.get? i with
  | none => exact Or.inl (by simp only [step, hw])
  | some w =>
      cases hph : w.phase with
      | streaming first docs => exact Or.inl (by simp only [step, hw, hph])
      | exited k => exact Or.inl (by simp only [step, hw, hph])
      | atLoopTop seed =>
          cases ht : s.terminatd with
          | true =>
              refine Or.inr (Or.inl ⟨w, seed, rfl, hph, rfl, ?_⟩)
              simp only [step, hw, hph, ht]
              simp
          | false =>
              cases seed with
              | some c =>
                  refine Or.inr (Or.inr (Or.inl ⟨w, c, rfl, hph, rfl, ?_⟩))
                  simp only [step, hw, hph, ht]
                  simp
              | none =>
                  cases hq : s.queue with
                  | cons c rest =>
                      refine Or.inr (Or.inr (Or.inr (Or.inl ⟨w, c, rest, rfl, hph, rfl, rfl, ?_⟩)))
                      simp only [step, hw, hph, ht, hq]
                      simp
                  | nil =>
                      cases hd : s.sender_dropped with
                      | true =>
                          refine Or.inr (Or.inr (Or.inr (Or.inr ⟨w, rfl, hph, rfl, rfl, rfl, ?_⟩)))
                          simp only [step, hw, hph, ht, hq, hd]
                          simp
                      | false =>
                          refine Or.inl ?_
                          simp only [step, hw, hph, ht, hq, hd]
                          simp

theorem step_shape_serializeFirst (s : Handler) (i : Nat) :
    (step s (.serializeFirst i) = s) ∨
    (∃ w c docs, s.workers.get? i = some w ∧ w.phase = .streaming (some c) docs ∧
      supportedCommand c = true ∧
      step s (.serializeFirst i) =
        { s with workers := s.workers.set i { w with phase := .streaming none (docs + 1) },
                 in_flight := s.in_flight + 1 }) ∨
    (∃ w c docs, s.workers.get? i = some w ∧ w.phase = .streaming (some c) docs ∧
      supportedCommand c = false ∧
      step s (.serializeFirst i) =
        { s with workers := s.workers.set i { w with phase := .exited .panicked },
                 in_flight := s.in_flight + 1 }) := by
  cases hw : s.workers.get? i with
  | none => exact Or.inl (by simp only [step, hw])
  | some w =>
      cases hph : w.phase with
      | atLoopTop seed => exact Or.inl (by simp only [step, hw, hph])
      | exited k => exact Or.inl (by simp only [step, hw, hph])
      | streaming first docs =>
          cases first with
          | none => exact Or.inl (by simp only [step, hw, hph])
          | some c =>
              cases hs : supportedCommand c with
              | true =>
                  refine Or.inr (Or.inl ⟨w, c, docs, rfl, hph, hs, ?_⟩)
                  simp only [step, hw, hph, hs]
                  all_goals simp
              | false =>
                  refine Or.inr (Or.inr ⟨w, c, docs, rfl, hph, hs, ?_⟩)
                  simp only [step, hw, hph, hs]
                  simp

theorem step_shape_recvSerialize (s : Handler) (i : Nat) :
    (step s (.recvSerialize i) = s) ∨
    (∃ w docs c rest, s.workers.get? i = some w ∧ w.phase = .streaming none docs ∧
      docs < 10000 ∧ s.queue = c :: rest ∧ supportedCommand c = true ∧
      step s (.recvSerialize i) =
        { s with queue := rest,
                 workers := s.workers.set i { w with phase := .streaming none (docs + 1) },
                 in_flight := s.in_flight + 1 }) ∨
    (∃ w docs c rest, s.workers.get? i = some w ∧ w.phase = .streaming none docs ∧
      docs < 10000 ∧ s.queue = c :: rest ∧ supportedCommand c = false ∧
      step s (.recvSerialize i) =
        { s with queue := rest,
                 workers := s.workers.set i { w with phase := .exited .panicked },
                 in_flight := s.in_flight + 1 }) := by
  cases hw : s.workers.get? i with
  | none => exact Or.inl (by simp only [step, hw])
  | some w =>
      cases hph : w.phase with
      | atLoopTop seed => exact Or.inl (by simp only [step, hw, hph])
      | exited k => exact Or.inl (by simp only [step, hw, hph])
      | streaming first docs =>
          cases first with
          | some c => exact Or.inl (by simp only [step, hw, hph])
          | none =>
              by_cases hdocs : docs < 10000
              · cases hq : s.queue with
                | nil =>
                    refine Or.inl ?_
                    simp only [step, hw, hph, hq, if_pos hdocs]
                | cons c rest =>
                    cases hs : supportedCommand c with
                    | true =>
                        refine Or.inr (Or.inl ⟨w, docs, c, rest, rfl, hph, hdocs, rfl, hs, ?_⟩)
                        simp only [step, hw, hph, hq, if_pos hdocs, hs]
                        all_goals simp
                    | false =>
                        refine Or.inr (Or.inr ⟨w, docs, c, rest, rfl, hph, hdocs, rfl, hs, ?_⟩)
                        simp only [step, hw, hph, hq, if_pos hdocs, hs]
                        simp
              · refine Or.inl ?_
                simp only [step, hw, hph, if_neg hdocs]

theorem step_shape_submitOk (s : Handler) (i : Nat) :
    (step s (.submitOk i) = s) ∨
    (∃ w, s.workers.get? i = some w ∧ w.phase = .streaming none 0 ∧
      step s (.submitOk i) =
        { s with successful_requests := s.successful_requests + 1,
                 in_flight := s.in_flight - (0 : Nat),
                 workers := s.workers.set i { w with phase := .exited .normal },
                 active_threads := s.active_threads - 1 }) ∨
    (∃ w docs, s.workers.get? i = some w ∧ w.phase = .streaming none docs ∧ docs ≠ 0 ∧
      step s (.submitOk i) =
        { s with successful_requests := s.successful_requests + 1,
                 in_flight := s.in_flight - (docs : Nat),
                 workers := s.workers.set i
                   { w with phase := .atLoopTop none,
                            total_docs_out := w.total_docs_out + docs } }) := by
  cases hw : s.workers.get? i with
  | none => exact Or.inl (by simp only [step, hw])
  | some w =>
      cases hph : w.phase with
      | atLoopTop seed => exact Or.inl (by simp only [step, hw, hph])
      | exited k => exact Or.inl (by simp only [step, hw, hph])
      | streaming first docs =>
          cases first with
          | some c => exact Or.inl (by simp only [step, hw, hph])
          | none =>
              by_cases hd : docs = 0
              · subst hd
                refine Or.inr (Or.inl ⟨w, rfl, hph, ?_⟩)
                simp only [step, hw, hph]
                simp
              · refine Or.inr (Or.inr ⟨w, docs, rfl, hph, hd, ?_⟩)
                simp only [step, hw, hph, if_neg hd]

theorem step_shape_submitFail (s : Handler) (i : Nat) :
    (step s (.submitFail i) = s) ∨
    (∃ w first docs, s.workers.get? i = some w ∧ w.phase = .streaming first docs ∧
      s.error_channel < s.error_capacity ∧
      step s (.submitFail i) =
        { s with error_channel := s.error_channel + 1,
                 workers := s.workers.set i { w with phase := .exited .failed } }) := by
  cases hw : s.workers.get? i with
  | none => exact Or.inl (by simp only [step, hw])
  | some w =>
      cases hph : w.phase with
      | atLoopTop seed => exact Or.inl (by simp only [step, hw, hph])
      | exited k => exact Or.inl (by simp only [step, hw, hph])
      | streaming first docs =>
          by_cases hcap : s.error_channel < s.error_capacity
          · exact Or.inr ⟨w, first, docs, rfl, hph, hcap, by
              simp only [step, hw, hph, if_pos hcap]⟩
          · exact Or.inl (by simp only [step, hw, hph, if_neg hcap])

theorem step_shape_callFinish (s : Handler) :
    (¬ s.producer = .running ∧ step s .callFinish = s) ∨
    (∃ s2, s.producer = .running ∧ checkForError s = some s2 ∧ step s .callFinish = s2) ∨
    (s.producer = .running ∧ checkForError s = none ∧
      step s .callFinish =
        { s with producer := .finishing s.successful_requests, sender_dropped := true }) := by
  by_cases hp : s.producer = .running
  · have hne : ¬ s.producer ≠ .running := by simp [hp]
    cases hc : checkForError s with
    | some s2 =>
        exact Or.inr (Or.inl ⟨s2, hp, rfl, by simp only [step, if_neg hne, hc]⟩)
    | none =>
        exact Or.inr (Or.inr ⟨hp, rfl, by simp only [step, if_neg hne, hc]⟩)
  · exact Or.inl ⟨hp, by simp only [step, if_pos hp]⟩

theorem step_shape_joinAll (s : Handler) (refreshOk : Bool) :
    (step s (.joinAll refreshOk) = s) ∨
    (∃ nrequests, s.producer = .finishing nrequests ∧ allExitedB s = true ∧
      anyPanickedB s = true ∧ step s (.joinAll refreshOk) = { s with producer := .panicked }) ∨
    (∃ nrequests s2, s.producer = .finishing nrequests ∧ allExitedB s = true ∧
      anyPanickedB s = false ∧ checkForError s = some s2 ∧
      step s (.joinAll refreshOk) = s2) ∨
    (∃ nrequests result, s.producer = .finishing nrequests ∧ allExitedB s = true ∧
      anyPanickedB s = false ∧ checkForError s = none ∧
      (refreshOk = true → result = FinishResult.ok (sumTotals s)) ∧
      (step s (.joinAll refreshOk)).producer = .finished result ∧
      (step s (.joinAll refreshOk)).workers = s.workers ∧
      (step s (.joinAll refreshOk)).queue = s.queue ∧
      (step s (.joinAll refreshOk)).in_flight = s.in_flight ∧
      (step s (.joinAll refreshOk)).total_docs = s.total_docs ∧
      (step s (.joinAll refreshOk)).terminatd = s.terminatd ∧
      (step s (.joinAll refreshOk)).error_channel = s.error_channel ∧
      (step s (.joinAll refreshOk)).interrupt_pending = s.interrupt_pending ∧
      (step s (.joinAll refreshOk)).sender_dropped = s.sender_dropped) := by
  cases hp : s.producer with
  | running => exact Or.inl (by simp only [step, hp])
  | finished r => exact Or.inl (by simp only [step, hp])
  | panicked => exact Or.inl (by simp only [step, hp])
  | finishing nrequests =>
      cases hall : allExitedB s with
      | false =>
          refine Or.inl ?_
          simp only [step, hp, hall]
          simp
      | true =>
          cases hpan : anyPanickedB s with
          | true =>
              refine Or.inr (Or.inl ⟨nrequests, rfl, rfl, rfl, ?_⟩)
              simp only [step, hp, hall, hpan]
              simp
          | false =>
              cases hc : checkForError s with
              | some s2 =>
                  refine Or.inr (Or.inr (Or.inl ⟨nrequests, s2, rfl, rfl, rfl, rfl, ?_⟩))
                  simp only [step, hp, hall, hpan, hc]
                  simp
              | none =>
                  refine Or.inr (Or.inr (Or.inr ?_))
                  by_cases hcond : 1 < nrequests ∨ s.allow_refresh = false
                  · cases hri : s.refresh_interval with
                    | immediate =>
                        refine ⟨nrequests, if refreshOk then .ok (sumTotals s)
                          else .err "refresh", rfl, rfl, rfl, rfl, ?_, ?_⟩
                        · intro hr; rw [hr]; simp
                        · simp only [step, hp, hall, hpan, hc, hri, if_pos hcond]
                          simp
                    | immediateAsync =>
                        refine ⟨nrequests, .ok (sumTotals s), rfl, rfl, rfl, rfl,
                          fun _ => rfl, ?_⟩
                        simp only [step, hp, hall, hpan, hc, hri, if_pos hcond]
                        simp
                    | background interval =>
                        refine ⟨nrequests, .ok (sumTotals s), rfl, rfl, rfl, rfl,
                          fun _ => rfl, ?_⟩
                        simp only [step, hp, hall, hpan, hc, hri, if_pos hcond]
                        simp
                  · refine ⟨nrequests, .ok (sumTotals s), rfl, rfl, rfl, rfl,
                      fun _ => rfl, ?_⟩
                    simp only [step, hp, hall, hpan, hc, if_neg hcond]
                    simp


/-- Documents serialized into a worker's current (in-progress) batch: the
per-batch `docs_out` counter of its live `BulkReceiver`. -/
def batchDocs (w : Worker) : Nat :=
  match w.phase with
  | .streaming _ docs => docs
  | _ => 0

/-- Sum of the in-progress batch sizes over all workers. -/
def batchSum (s : Handler) : Nat :=
  (s.workers.map batchDocs).sum

theorem sum_map_set {A : Type} (f : A → Nat) :
    ∀ (l : List A) (i : Nat) (a b : A), l.get? i = some a →
      ((l.set i b).map f).sum + f a = (l.map f).sum + f b := by
  intro l
  induction l with
  | nil => intro i a b hm; exact absurd hm (by simp)
  | cons x xs ih =>
      intro i a b hm
      cases i with
      | zero =>
          simp only [List.get?_cons_zero, Option.some.injEq] at hm
          subst hm
          simp only [List.set, List.map_cons, List.sum_cons]
          omega
      | succ n =>
          simp only [List.get?_cons_succ] at hm
          have hx := ih n a b hm
          simp only [List.set, List.map_cons, List.sum_cons]
          omega

theorem batchSum_spawn (s : Handler) (c : BulkRequestCommand) :
    batchSum (spawnWorker s c) = batchSum s := by
  simp [batchSum, spawnWorker, batchDocs]

theorem batchSum_le_step (s : Handler) (e : Ev)
    (h : (batchSum s : Int) ≤ s.in_flight) :
    (batchSum (step s e) : Int) ≤ (step s e).in_flight := by
  cases e with
  | terminateNow => exact h
  | interruptArrives => exact h
  | queueCommand c =>
      rcases step_shape_queueCommand s c with ⟨_, hs⟩ | ⟨s2, _, hc, hs⟩ |
        ⟨_, _, _, hs⟩ | ⟨_, _, _, _, hs⟩ | ⟨_, _, _, _, hs⟩
      · rw [hs]; exact h
      · rw [hs]
        obtain ⟨hwk, hfl, _⟩ := checkForError_some hc
        unfold batchSum
        rw [hwk, hfl]
        exact h
      · rw [hs, batchSum_spawn]; exact h
      · rw [hs]; exact h
      · rw [hs]; exact h
  | callFinish =>
      rcases step_shape_callFinish s with ⟨_, hs⟩ | ⟨s2, _, hc, hs⟩ | ⟨_, _, hs⟩
      · rw [hs]; exact h
      · rw [hs]
        obtain ⟨hwk, hfl, _⟩ := checkForError_some hc
        unfold batchSum
        rw [hwk, hfl]
        exact h
      · rw [hs]; exact h
  | joinAll refreshOk =>
      rcases step_shape_joinAll s refreshOk with hs | ⟨n, _, _, _, hs⟩ |
        ⟨n, s2, _, _, _, hc, hs⟩ | ⟨n, result, _, _, _, _, _, _, hwk, _, hfl, _⟩
      · rw [hs]; exact h
      · rw [hs]; exact h
      · rw [hs]
        obtain ⟨hwk, hfl, _⟩ := checkForError_some hc
        unfold batchSum
        rw [hwk, hfl]
        exact h
      · unfold batchSum
        rw [hwk, hfl]
        exact h
  | getFirst i =>
      rcases step_shape_getFirst s i with hs | ⟨w, seed, hw, hph, ht, hs⟩ |
        ⟨w, c, hw, hph, ht, hs⟩ | ⟨w, c, rest, hw, hph, ht, hq, hs⟩ |
        ⟨w, hw, hph, ht, hq, hd, hs⟩
      · rw [hs]; exact h
      · rw [hs]
        have hset := sum_map_set batchDocs s.workers i w
          { w with phase := .exited .normal } hw
        have hb1 : batchDocs w = 0 := by unfold batchDocs; rw [hph]
        have hb2 : batchDocs { w with phase := WorkerPhase.exited .normal } = 0 := rfl
        rw [hb1, hb2] at hset
        unfold batchSum at h ⊢
        dsimp only
        omega
      · rw [hs]
        have hset := sum_map_set batchDocs s.workers i w
          { w with phase := .streaming (some c) 0 } hw
        have hb1 : batchDocs w = 0 := by unfold batchDocs; rw [hph]
        have hb2 : batchDocs { w with phase := WorkerPhase.streaming (some c) 0 } = 0 := rfl
        rw [hb1, hb2] at hset
        unfold batchSum at h ⊢
        dsimp only
        omega
      · rw [hs]
        have hset := sum_map_set batchDocs s.workers i w
          { w with phase := .streaming (some c) 0 } hw
        have hb1 : batchDocs w = 0 := by unfold batchDocs; rw [hph]
        have hb2 : batchDocs { w with phase := WorkerPhase.streaming (some c) 0 } = 0 := rfl
        rw [hb1, hb2] at hset
        unfold batchSum at h ⊢
        dsimp only
        omega
      · rw [hs]
        have hset := sum_map_set batchDocs s.workers i w
          { w with phase := .exited .normal } hw
        have hb1 : batchDocs w = 0 := by unfold batchDocs; rw [hph]
        have hb2 : batchDocs { w with phase := WorkerPhase.exited .normal } = 0 := rfl
        rw [hb1, hb2] at hset
        unfold batchSum at h ⊢
        dsimp only
        omega
  | serializeFirst i =>
      rcases step_shape_serializeFirst s i with hs | ⟨w, c, docs, hw, hph, _, hs⟩ |
        ⟨w, c, docs, hw, hph, _, hs⟩
      · rw [hs]; exact h
      · rw [hs]
        have hset := sum_map_set batchDocs s.workers i w
          { w with phase := .streaming none (docs + 1) } hw
        have hb1 : batchDocs w = docs := by unfold batchDocs; rw [hph]
        have hb2 : batchDocs { w with phase := WorkerPhase.streaming none (docs + 1) } =
          docs + 1 := rfl
        rw [hb1, hb2] at hset
        unfold batchSum at h ⊢
        dsimp only
        omega
      · rw [hs]
        have hset := sum_map_set batchDocs s.workers i w
          { w with phase := .exited .panicked } hw
        have hb1 : batchDocs w = docs := by unfold batchDocs; rw [hph]
        have hb2 : batchDocs { w with phase := WorkerPhase.exited .panicked } = 0 := rfl
        rw [hb1, hb2] at hset
        unfold batchSum at h ⊢
        dsimp only
        omega
  | recvSerialize i =>
      rcases step_shape_recvSerialize s i with hs | ⟨w, docs, c, rest, hw, hph, _, hq, _, hs⟩ |
        ⟨w, docs, c, rest, hw, hph, _, hq, _, hs⟩
      · rw [hs]; exact h
      · rw [hs]
        have hset := sum_map_set batchDocs s.workers i w
          { w with phase := .streaming none (docs + 1) } hw
        have hb1 : batchDocs w = docs := by unfold batchDocs; rw [hph]
        have hb2 : batchDocs { w with phase := WorkerPhase.streaming none (docs + 1) } =
          docs + 1 := rfl
        rw [hb1, hb2] at hset
        unfold batchSum at h ⊢
        dsimp only
        omega
      · rw [hs]
        have hset := sum_map_set batchDocs s.workers i w
          { w with phase := .exited .panicked } hw
        have hb1 : batchDocs w = docs := by unfold batchDocs; rw [hph]
        have hb2 : batchDocs { w with phase := WorkerPhase.exited .panicked } = 0 := rfl
        rw [hb1, hb2] at hset
        unfold batchSum at h ⊢
        dsimp only
        omega
  | submitOk i =>
      rcases step_shape_submitOk s i with hs | ⟨w, hw, hph, hs⟩ | ⟨w, docs, hw, hph, _, hs⟩
      · rw [hs]; exact h
      · rw [hs]
        have hset := sum_map_set batchDocs s.workers i w
          { w with phase := .exited .normal } hw
        have hb1 : batchDocs w = 0 := by unfold batchDocs; rw [hph]
        have hb2 : batchDocs { w with phase := WorkerPhase.exited .normal } = 0 := rfl
        rw [hb1, hb2] at hset
        unfold batchSum at h ⊢
        dsimp only
        omega
      · rw [hs]
        have hset := sum_map_set batchDocs s.workers i w
          { w with phase := .atLoopTop none, total_docs_out := w.total_docs_out + docs } hw
        have hb1 : batchDocs w = docs := by unfold batchDocs; rw [hph]
        have hb2 : batchDocs ({ w with phase := WorkerPhase.atLoopTop none, total_docs_out := w.total_docs_out + docs }) = 0 := rfl
        rw [hb1, hb2] at hset
        unfold batchSum at h ⊢
        dsimp only
        omega
  | submitFail i =>
      rcases step_shape_submitFail s i with hs | ⟨w, first, docs, hw, hph, _, hs⟩
      · rw [hs]; exact h
      · rw [hs]
        have hset := sum_map_set batchDocs s.workers i w
          { w with phase := .exited .failed } hw
        have hb1 : batchDocs w = docs := by unfold batchDocs; rw [hph]
        have hb2 : batchDocs { w with phase := WorkerPhase.exited .failed } = 0 := rfl
        rw [hb1, hb2] at hset
        unfold batchSum at h ⊢
        dsimp only
        omega

theorem batchSum_le_run (s : Handler) (evs : List Ev)
    (h : (batchSum s : Int) ≤ s.in_flight) :
    (batchSum (evs.foldl step s) : Int) ≤ (evs.foldl step s).in_flight := by
  induction evs generalizing s with
  | nil => exact h
  | cons e evs ih => exact ih _ (batchSum_le_step s e h)

theorem in_flight_step_cases (s : Handler) (e : Ev) :
    (step s e).in_flight = s.in_flight ∨ (step s e).in_flight = s.in_flight + 1 ∨
    (∃ i w docs, e = .submitOk i ∧ s.workers.get? i = some w ∧
      w.phase = .streaming none docs ∧
      (step s e).in_flight = s.in_flight - (docs : Int)) := by
  cases e with
  | terminateNow => exact Or.inl rfl
  | interruptArrives => exact Or.inl rfl
  | queueCommand c =>
      rcases step_shape_queueCommand s c with ⟨_, hs⟩ | ⟨s2, _, hc, hs⟩ |
        ⟨_, _, _, hs⟩ | ⟨_, _, _, _, hs⟩ | ⟨_, _, _, _, hs⟩
      · exact Or.inl (by rw [hs])
      · refine Or.inl ?_
        rw [hs]
        exact (checkForError_some hc).2.1
      · exact Or.inl (by rw [hs]; rfl)
      · exact Or.inl (by rw [hs])
      · exact Or.inl (by rw [hs])
  | callFinish =>
      rcases step_shape_callFinish s with ⟨_, hs⟩ | ⟨s2, _, hc, hs⟩ | ⟨_, _, hs⟩
      · exact Or.inl (by rw [hs])
      · refine Or.inl ?_
        rw [hs]
        exact (checkForError_some hc).2.1
      · exact Or.inl (by rw [hs])
  | joinAll refreshOk =>
      rcases step_shape_joinAll s refreshOk with hs | ⟨n, _, _, _, hs⟩ |
        ⟨n, s2, _, _, _, hc, hs⟩ | ⟨n, result, _, _, _, _, _, _, _, _, hfl, _⟩
      · exact Or.inl (by rw [hs])
      · exact Or.inl (by rw [hs])
      · refine Or.inl ?_
        rw [hs]
        exact (checkForError_some hc).2.1
      · exact Or.inl hfl
  | getFirst i =>
      rcases step_shape_getFirst s i with hs | ⟨w, seed, hw, hph, ht, hs⟩ |
        ⟨w, c, hw, hph, ht, hs⟩ | ⟨w, c, rest, hw, hph, ht, hq, hs⟩ |
        ⟨w, hw, hph, ht, hq, hd, hs⟩ <;> exact Or.inl (by rw [hs])
  | serializeFirst i =>
      rcases step_shape_serializeFirst s i with hs | ⟨w, c, docs, hw, hph, _, hs⟩ |
        ⟨w, c, docs, hw, hph, _, hs⟩
      · exact Or.inl (by rw [hs])
      · exact Or.inr (Or.inl (by rw [hs]))
      · exact Or.inr (Or.inl (by rw [hs]))
  | recvSerialize i =>
      rcases step_shape_recvSerialize s i with hs | ⟨w, docs, c, rest, hw, hph, _, hq, _, hs⟩ |
        ⟨w, docs, c, rest, hw, hph, _, hq, _, hs⟩
      · exact Or.inl (by rw [hs])
      · exact Or.inr (Or.inl (by rw [hs]))
      · exact Or.inr (Or.inl (by rw [hs]))
  | submitOk i =>
      rcases step_shape_submitOk s i with hs | ⟨w, hw, hph, hs⟩ | ⟨w, docs, hw, hph, _, hs⟩
      · exact Or.inl (by rw [hs])
      · exact Or.inr (Or.inr ⟨i, w, 0, rfl, hw, hph, by rw [hs]⟩)
      · exact Or.inr (Or.inr ⟨i, w, docs, rfl, hw, hph, by rw [hs]⟩)
  | submitFail i =>
      rcases step_shape_submitFail s i with hs | ⟨w, first, docs, hw, hph, _, hs⟩
      · exact Or.inl (by rw [hs])
      · exact Or.inl (by rw [hs])

/-- C8: on every reachable state of the pipeline the shared `in_flight`
counter is never negative, and the only event that decreases it is a
successfully completed batch submission (`in_flight.fetch_sub(docs_out)`,
bulk.rs line 507), which decreases it by exactly that batch's `docs_out`.
Failure paths and termination leave it untouched. -/
theorem c8_in_flight (cfg : Config) (evs : List Ev) (e : Ev) :
    0 ≤ (run cfg evs).in_flight ∧
    ((step (run cfg evs) e).in_flight < (run cfg evs).in_flight →
      ∃ i w docs, e = .submitOk i ∧ (run cfg evs).workers.get? i = some w ∧
        w.phase = .streaming none docs ∧
        (step (run cfg evs) e).in_flight = (run cfg evs).in_flight - (docs : Int)) := by
  have hinv : (batchSum (run cfg evs) : Int) ≤ (run cfg evs).in_flight :=
    batchSum_le_run (Handler.new cfg) evs (by norm_num [batchSum, Handler.new])
  constructor
  · have hpos : (0 : Int) ≤ (batchSum (run cfg evs) : Int) := Int.ofNat_nonneg _
    omega
  · intro hlt
    rcases in_flight_step_cases (run cfg evs) e with he | he | he
    · omega
    · omega
    · exact he


/-- C8 witness: a concrete run in which a completed batch of one document
strictly decreases `in_flight`, exhibiting the decrease as exactly the batch's
`docs_out`. -/
theorem c8_in_flight_witness :
    ∃ i w docs, Ev.submitOk 0 = Ev.submitOk i ∧
      (run ⟨0, 1, 8388608, true, .immediate⟩
        [.queueCommand (insCmd 1), .getFirst 0, .serializeFirst 0]).workers.get? i = some w ∧
      w.phase = .streaming none docs ∧
      (step (run ⟨0, 1, 8388608, true, .immediate⟩
          [.queueCommand (insCmd 1), .getFirst 0, .serializeFirst 0])
        (.submitOk 0)).in_flight =
      (run ⟨0, 1, 8388608, true, .immediate⟩
        [.queueCommand (insCmd 1), .getFirst 0, .serializeFirst 0]).in_flight - (docs : Int) :=
  (c8_in_flight ⟨0, 1, 8388608, true, .immediate⟩
    [.queueCommand (insCmd 1), .getFirst 0, .serializeFirst 0] (.submitOk 0)).2 (by decide)


/-
Machinery for the clean-run accounting theorem (C1): on schedules with no
failures and no termination, every accepted command is tracked from the queue
through a worker's batch into its `total_docs_out`, and the joins of `finish`
return the sum.
-/

theorem get?_mem_list {A : Type} : ∀ (l : List A) (i : Nat) (a : A),
    l.get? i = some a → a ∈ l := by
  intro l
  induction l with
  | nil => intro i a hm; exact absurd hm (by simp)
  | cons x xs ih =>
      intro i a hm
      cases i with
      | zero =>
          simp only [List.get?_cons_zero, Option.some.injEq] at hm
          exact hm ▸ List.mem_cons_self x xs
      | succ n =>
          simp only [List.get?_cons_succ] at hm
          exact List.mem_cons_of_mem x (ih n a hm)

theorem mem_of_mem_set {A : Type} : ∀ (l : List A) (i : Nat) (a b : A),
    a ∈ l.set i b → a ∈ l ∨ a = b := by
  intro l
  induction l with
  | nil => intro i a b hm; simp at hm
  | cons x xs ih =>
      intro i a b hm
      cases i with
      | zero =>
          simp only [List.set] at hm
          rcases List.mem_cons.mp hm with hm | hm
          · exact Or.inr hm
          · exact Or.inl (List.mem_cons_of_mem x hm)
      | succ n =>
          simp only [List.set] at hm
          rcases List.mem_cons.mp hm with hm | hm
          · exact Or.inl (hm ▸ List.mem_cons_self x xs)
          · rcases ih n a b hm with hm | hm
            · exact Or.inl (List.mem_cons_of_mem x hm)
            · exact Or.inr hm

theorem set_self_mem {A : Type} : ∀ (l : List A) (i : Nat) (a b : A),
    l.get? i = some a → b ∈ l.set i b := by
  intro l
  induction l with
  | nil => intro i a b hm; exact absurd hm (by simp)
  | cons x xs ih =>
      intro i a b hm
      cases i with
      | zero => simp [List.set]
      | succ n =>
          simp only [List.get?_cons_succ] at hm
          simp only [List.set]
          exact List.mem_cons_of_mem x (ih n a b hm)

/-- Commands a worker is currently responsible for (seed or pending first plus
the current batch), together with its completed total. -/
def Worker.docsIn (w : Worker) : Nat :=
  (match w.phase with
   | .atLoopTop seed => if seed.isSome then 1 else 0
   | .streaming first docs => (if first.isSome then 1 else 0) + docs
   | .exited _ => 0) + w.total_docs_out

/-- Every accepted command is in exactly one place: still queued, or owned by
some worker. -/
def docsIn (s : Handler) : Nat :=
  s.queue.length + (s.workers.map Worker.docsIn).sum

/-- The command (if any) held inside a worker phase is encodable. -/
def suppPhase : WorkerPhase → Prop
  | .atLoopTop (some c) => supportedCommand c = true
  | .streaming (some c) _ => supportedCommand c = true
  | _ => True

def suppW (w : Worker) : Prop := suppPhase w.phase

/-- Events of a clean run: no induced failures, no termination request, no
host interrupt, a succeeding refresh, and only encodable mutations (inserts,
and updates which serialize the same way). -/
def goodEv : Ev → Bool
  | .queueCommand command => supportedCommand command
  | .terminateNow => false
  | .interruptArrives => false
  | .submitFail _ => false
  | .joinAll refreshOk => refreshOk
  | _ => true

/-- Invariant of clean runs: `total_docs` counts exactly the commands still
queued or owned by workers; no error or termination is pending; workers only
exit after the sender is dropped; the queue is empty once everyone exited; and
a `finish` that returned `Ok r` returned exactly the accepted count. -/
structure GInv (s : Handler) : Prop where
  total_eq : s.total_docs = docsIn s
  err0 : s.error_channel = 0
  term0 : s.terminatd = false
  intr0 : s.interrupt_pending = false
  run_nodrop : s.producer = .running → s.sender_dropped = false
  fin_drop : ∀ n, s.producer = .finishing n → s.sender_dropped = true
  exit_drop : ∀ w ∈ s.workers, (∃ k, w.phase = .exited k) → s.sender_dropped = true
  no_bad_exit : ∀ w ∈ s.workers, w.phase ≠ .exited .failed ∧ w.phase ≠ .exited .panicked
  drained : s.sender_dropped = true → (∀ w ∈ s.workers, ∃ k, w.phase = .exited k) →
    s.queue = []
  nil_queue : s.workers = [] → s.queue = []
  streaming_pos : ∀ w ∈ s.workers, ∀ docs, w.phase = .streaming none docs → 1 ≤ docs
  fin_val : ∀ r, s.producer = .finished (.ok r) → r = s.total_docs
  supp_q : ∀ c ∈ s.queue, supportedCommand c = true
  supp_w : ∀ w ∈ s.workers, suppW w

theorem ginv_new (cfg : Config) : GInv (Handler.new cfg) := by
  refine ⟨rfl, rfl, rfl, rfl, fun _ => rfl, ?_, ?_, ?_, fun _ _ => rfl, fun _ => rfl,
    ?_, ?_, ?_, ?_⟩
  · intro n hn; exact Producer.noConfusion hn
  · intro w hw; exact absurd hw (by simp [Handler.new])
  · intro w hw; exact absurd hw (by simp [Handler.new])
  · intro w hw; exact absurd hw (by simp [Handler.new])
  · intro r hr; exact absurd hr (by simp [Handler.new])
  · intro c hc; exact absurd hc (by simp [Handler.new])
  · intro w hw; exact absurd hw (by simp [Handler.new])

theorem docsIn_spawn (s : Handler) (c : BulkRequestCommand) :
    docsIn (spawnWorker s c) = docsIn s + 1 := by
  unfold docsIn spawnWorker
  dsimp only
  rw [List.map_append, List.sum_append]
  have hone : Worker.docsIn { phase := WorkerPhase.atLoopTop (some c), total_docs_out := 0 }
      = 1 := rfl
  simp [hone]
  omega

/-- `GInv` is preserved by a transition replacing worker `i` with a non-exited
worker, provided the documents-in-flight accounting balances. -/
theorem ginv_set (s : Handler) (h : GInv s) {i : Nat} {w : Worker}
    (hw : s.workers.get? i = some w) (w2 : Worker) (s2 : Handler)
    (hW : s2.workers = s.workers.set i w2)
    (hQ : s2.queue.length + Worker.docsIn w2 = s.queue.length + Worker.docsIn w)
    (hQsub : ∀ c ∈ s2.queue, c ∈ s.queue)
    (hT : s2.total_docs = s.total_docs)
    (hE : s2.error_channel = s.error_channel)
    (hTm : s2.terminatd = s.terminatd)
    (hI : s2.interrupt_pending = s.interrupt_pending)
    (hP : s2.producer = s.producer)
    (hD : s2.sender_dropped = s.sender_dropped)
    (hnex : ∀ k, w2.phase ≠ .exited k)
    (hsupp : suppW w2)
    (hpos : ∀ docs, w2.phase = .streaming none docs → 1 ≤ docs) :
    GInv s2 := by
  have hsum := sum_map_set Worker.docsIn s.workers i w w2 hw
  have ht := h.total_eq
  unfold docsIn at ht
  refine ⟨?_, by rw [hE, h.err0], by rw [hTm, h.term0], by rw [hI, h.intr0],
    ?_, ?_, ?_, ?_, ?_, ?_, ?_, ?_, ?_, ?_⟩
  · unfold docsIn
    rw [hW, hT]
    omega
  · intro hp; rw [hD]; exact h.run_nodrop (hP ▸ hp)
  · intro n hp; rw [hD]; exact h.fin_drop n (hP ▸ hp)
  · intro w3 hm hex
    rw [hW] at hm
    rcases mem_of_mem_set _ _ _ _ hm with hm | hm
    · rw [hD]; exact h.exit_drop w3 hm hex
    · obtain ⟨k, hk⟩ := hex
      exact absurd (hm ▸ hk) (hnex k)
  · intro w3 hm
    rw [hW] at hm
    rcases mem_of_mem_set _ _ _ _ hm with hm | hm
    · exact h.no_bad_exit w3 hm
    · subst hm
      exact ⟨hnex .failed, hnex .panicked⟩
  · intro hd hall
    have hmem : w2 ∈ s2.workers := by rw [hW]; exact set_self_mem _ _ _ _ hw
    obtain ⟨k, hk⟩ := hall w2 hmem
    exact absurd hk (hnex k)
  · intro hnil
    rw [hW] at hnil
    have hlen := congrArg List.length hnil
    simp only [List.length_set, List.length_nil] at hlen
    have hnil2 : s.workers = [] := List.eq_nil_of_length_eq_zero hlen
    rw [hnil2] at hw
    exact absurd hw (by simp)
  · intro w3 hm docs hph
    rw [hW] at hm
    rcases mem_of_mem_set _ _ _ _ hm with hm | hm
    · exact h.streaming_pos w3 hm docs hph
    · exact hpos docs (hm ▸ hph)
  · intro r hr
    rw [hT]
    exact h.fin_val r (hP ▸ hr)
  · intro c hc
    exact h.supp_q c (hQsub c hc)
  · intro w3 hm
    rw [hW] at hm
    rcases mem_of_mem_set _ _ _ _ hm with hm | hm
    · exact h.supp_w w3 hm
    · exact hm ▸ hsupp

theorem allExitedB_iff (s : Handler) :
    allExitedB s = true ↔ (∀ w ∈ s.workers, ∃ k, w.phase = .exited k) := by
  unfold allExitedB
  rw [List.all_eq_true]
  constructor
  · intro hall w hm
    have hx := hall w hm
    revert hx
    cases hph : w.phase with
    | atLoopTop seed => simp
    | streaming first docs => simp
    | exited k => intro; exact ⟨k, rfl⟩
  · intro hall w hm
    obtain ⟨k, hk⟩ := hall w hm
    rw [hk]

theorem anyPanickedB_eq_false (s : Handler)
    (h : ∀ w ∈ s.workers, w.phase ≠ .exited .failed ∧ w.phase ≠ .exited .panicked) :
    anyPanickedB s = false := by
  unfold anyPanickedB
  rw [List.any_eq_false]
  intro w hm
  simp only [decide_eq_true_eq]
  exact (h w hm).2

theorem exited_docsIn_sum : ∀ (l : List Worker),
    (∀ w ∈ l, ∃ k, w.phase = .exited k) →
    (l.map Worker.docsIn).sum = (l.map Worker.total_docs_out).sum := by
  intro l
  induction l with
  | nil => intro; rfl
  | cons w ws ih =>
      intro hall
      obtain ⟨k, hk⟩ := hall w (List.mem_cons_self w ws)
      have hwd : Worker.docsIn w = w.total_docs_out := by
        unfold Worker.docsIn
        rw [hk]
        simp
      simp only [List.map_cons, List.sum_cons, hwd,
        ih fun w2 hm => hall w2 (List.mem_cons_of_mem w hm)]

theorem ginv_step (s : Handler) (e : Ev) (h : GInv s) (hg : goodEv e = true) :
    GInv (step s e) := by
  cases e with
  | terminateNow => exact absurd hg (by simp [goodEv])
  | interruptArrives => exact absurd hg (by simp [goodEv])
  | submitFail i => exact absurd hg (by simp [goodEv])
  | queueCommand c =>
      have hsc : supportedCommand c = true := hg
      rcases step_shape_queueCommand s c with ⟨_, hs⟩ | ⟨s2, _, hc, hs⟩ |
        ⟨hp, _, _, hs⟩ | ⟨hp, _, hcond, hlen, hs⟩ | ⟨_, _, _, _, hs⟩
      · rw [hs]; exact h
      · rw [checkForError_none_iff.mpr ⟨h.err0, h.intr0⟩] at hc
        exact Option.noConfusion hc
      · -- spawn a worker seeded with c
        rw [hs]
        refine ⟨?_, h.err0, h.term0, h.intr0, fun _ => h.run_nodrop hp,
          ?_, ?_, ?_, ?_, ?_, ?_, ?_, h.supp_q, ?_⟩
        · show s.total_docs + 1 = docsIn (spawnWorker s c)
          rw [docsIn_spawn, h.total_eq]
        · intro n hp2
          exact absurd (hp ▸ hp2) (by simp)
        · intro w hm hex
          rcases List.mem_append.mp hm with hm | hm
          · exact h.exit_drop w hm hex
          · simp only [List.mem_singleton] at hm
            obtain ⟨k, hk⟩ := hex
            rw [hm] at hk
            exact WorkerPhase.noConfusion hk
        · intro w hm
          rcases List.mem_append.mp hm with hm | hm
          · exact h.no_bad_exit w hm
          · simp only [List.mem_singleton] at hm
            subst hm
            exact ⟨by simp, by simp⟩
        · intro hd _
          exact absurd (h.run_nodrop hp ▸ hd) (by simp)
        · intro hnil
          exact absurd hnil (by simp [spawnWorker])
        · intro w hm docs hph
          rcases List.mem_append.mp hm with hm | hm
          · exact h.streaming_pos w hm docs hph
          · simp only [List.mem_singleton] at hm
            rw [hm] at hph
            exact WorkerPhase.noConfusion hph
        · intro r hr
          exact absurd (hp ▸ hr) (by simp)
        · intro w hm
          rcases List.mem_append.mp hm with hm | hm
          · exact h.supp_w w hm
          · simp only [List.mem_singleton] at hm
            subst hm
            exact hsc
      · -- push onto the bounded queue
        rw [hs]
        have hnz : s.workers ≠ [] := by
          intro hnil
          exact hcond (Or.inl (by rw [hnil]; rfl))
        refine ⟨?_, h.err0, h.term0, h.intr0, fun _ => h.run_nodrop hp,
          ?_, h.exit_drop, h.no_bad_exit, ?_, ?_, h.streaming_pos, ?_, ?_, h.supp_w⟩
        · have ht := h.total_eq
          unfold docsIn at ht
          show s.total_docs + 1 = (s.queue ++ [c]).length + (s.workers.map Worker.docsIn).sum
          rw [List.length_append, List.length_singleton]
          omega
        · intro n hp2
          exact absurd (hp ▸ hp2) (by simp)
        · intro hd _
          exact absurd (h.run_nodrop hp ▸ hd) (by simp)
        · intro hnil
          exact absurd hnil hnz
        · intro r hr
          exact absurd (hp ▸ hr) (by simp)
        · intro c2 hc2
          rcases List.mem_append.mp hc2 with hc2 | hc2
          · exact h.supp_q c2 hc2
          · simp only [List.mem_singleton] at hc2
            exact hc2 ▸ hsc
      · rw [hs]; exact h
  | getFirst i =>
      rcases step_shape_getFirst s i with hs | ⟨w, seed, hw, hph, ht, hs⟩ |
        ⟨w, c, hw, hph, ht, hs⟩ | ⟨w, c, rest, hw, hph, ht, hq, hs⟩ |
        ⟨w, hw, hph, ht, hq, hd, hs⟩
      · rw [hs]; exact h
      · exact absurd ht (by rw [h.term0]; simp)
      · -- consume the seed command
        rw [hs]
        refine ginv_set s h hw _ _ rfl ?_ (fun c2 hc2 => hc2) rfl rfl rfl rfl rfl rfl
          ?_ ?_ ?_
        · show s.queue.length + Worker.docsIn _ = s.queue.length + Worker.docsIn w
          unfold Worker.docsIn
          rw [hph]
          simp
        · intro k hk
          exact WorkerPhase.noConfusion hk
        · show supportedCommand c = true
          have hsw := h.supp_w w (get?_mem_list _ _ _ hw)
          unfold suppW at hsw
          rw [hph] at hsw
          exact hsw
        · intro docs hph2
          exact Option.noConfusion (WorkerPhase.streaming.inj hph2).1
      · -- receive the first command of a batch from the queue
        rw [hs]
        refine ginv_set s h hw _ _ rfl ?_ ?_ rfl rfl rfl rfl rfl rfl ?_ ?_ ?_
        · show rest.length + Worker.docsIn _ = s.queue.length + Worker.docsIn w
          unfold Worker.docsIn
          rw [hph, hq]
          simp
          omega
        · intro c2 hc2
          rw [hq]
          exact List.mem_cons_of_mem c hc2
        · intro k hk
          exact WorkerPhase.noConfusion hk
        · show supportedCommand c = true
          exact h.supp_q c (by rw [hq]; exact List.mem_cons_self c rest)
        · intro docs hph2
          exact Option.noConfusion (WorkerPhase.streaming.inj hph2).1
      · -- channel closed and drained: exit
        rw [hs]
        have hsum := sum_map_set Worker.docsIn s.workers i w
          ({ w with phase := .exited .normal }) hw
        have hd1 : Worker.docsIn w = w.total_docs_out := by
          unfold Worker.docsIn; rw [hph]; simp
        have hd2 : Worker.docsIn ({ w with phase := WorkerPhase.exited .normal }) =
            w.total_docs_out := by
          unfold Worker.docsIn
          simp
        rw [hd1, hd2] at hsum
        have ht := h.total_eq
        unfold docsIn at ht
        refine ⟨?_, h.err0, h.term0, h.intr0, ?_, fun n _ => hd, ?_, ?_, ?_, ?_,
          ?_, ?_, h.supp_q, ?_⟩
        · show s.total_docs = s.queue.length +
            ((s.workers.set i ({ w with phase := WorkerPhase.exited .normal })).map
              Worker.docsIn).sum
          omega
        · intro hp
          exact absurd (h.run_nodrop hp) (by rw [hd]; simp)
        · intro w3 hm hex
          exact hd
        · intro w3 hm
          rcases mem_of_mem_set _ _ _ _ hm with hm | hm
          · exact h.no_bad_exit w3 hm
          · subst hm
            exact ⟨by simp, by simp⟩
        · intro _ _
          exact hq
        · intro _
          exact hq
        · intro w3 hm docs hph2
          rcases mem_of_mem_set _ _ _ _ hm with hm | hm
          · exact h.streaming_pos w3 hm docs hph2
          · rw [hm] at hph2
            exact WorkerPhase.noConfusion hph2
        · intro r hr
          exact h.fin_val r hr
        · intro w3 hm
          rcases mem_of_mem_set _ _ _ _ hm with hm | hm
          · exact h.supp_w w3 hm
          · subst hm
            exact trivial
  | serializeFirst i =>
      rcases step_shape_serializeFirst s i with hs | ⟨w, c, docs, hw, hph, hsc, hs⟩ |
        ⟨w, c, docs, hw, hph, hsc, hs⟩
      · rw [hs]; exact h
      · rw [hs]
        refine ginv_set s h hw _ _ rfl ?_ (fun c2 hc2 => hc2) rfl rfl rfl rfl rfl rfl
          ?_ trivial ?_
        · show s.queue.length + Worker.docsIn _ = s.queue.length + Worker.docsIn w
          unfold Worker.docsIn
          rw [hph]
          simp
          omega
        · intro k hk
          exact WorkerPhase.noConfusion hk
        · intro docs2 hph2
          have hdd := (WorkerPhase.streaming.inj hph2).2
          omega
      · -- unsupported command: impossible on a clean run
        have hsw := h.supp_w w (get?_mem_list _ _ _ hw)
        unfold suppW at hsw
        rw [hph] at hsw
        rw [hsw] at hsc
        exact Bool.noConfusion hsc
  | recvSerialize i =>
      rcases step_shape_recvSerialize s i with hs |
        ⟨w, docs, c, rest, hw, hph, _, hq, hsc, hs⟩ |
        ⟨w, docs, c, rest, hw, hph, _, hq, hsc, hs⟩
      · rw [hs]; exact h
      · rw [hs]
        refine ginv_set s h hw _ _ rfl ?_ ?_ rfl rfl rfl rfl rfl rfl ?_ trivial ?_
        · show rest.length + Worker.docsIn _ = s.queue.length + Worker.docsIn w
          unfold Worker.docsIn
          rw [hph, hq]
          simp
          omega
        · intro c2 hc2
          rw [hq]
          exact List.mem_cons_of_mem c hc2
        · intro k hk
          exact WorkerPhase.noConfusion hk
        · intro docs2 hph2
          have hdd := (WorkerPhase.streaming.inj hph2).2
          omega
      · have hsq := h.supp_q c (by rw [hq]; exact List.mem_cons_self c rest)
        rw [hsq] at hsc
        exact Bool.noConfusion hsc
  | submitOk i =>
      rcases step_shape_submitOk s i with hs | ⟨w, hw, hph, hs⟩ |
        ⟨w, docs, hw, hph, hdz, hs⟩
      · rw [hs]; exact h
      · -- a successful batch with docs_out = 0 is unreachable
        have hpos := h.streaming_pos w (get?_mem_list _ _ _ hw) 0 hph
        omega
      · rw [hs]
        refine ginv_set s h hw _ _ rfl ?_ (fun c2 hc2 => hc2) rfl rfl rfl rfl rfl rfl
          ?_ trivial ?_
        · show s.queue.length + Worker.docsIn _ = s.queue.length + Worker.docsIn w
          unfold Worker.docsIn
          rw [hph]
          simp
          omega
        · intro k hk
          exact WorkerPhase.noConfusion hk
        · intro docs2 hph2
          exact absurd hph2 (by simp)
  | callFinish =>
      rcases step_shape_callFinish s with ⟨_, hs⟩ | ⟨s2, _, hc, hs⟩ | ⟨hp, _, hs⟩
      · rw [hs]; exact h
      · rw [checkForError_none_iff.mpr ⟨h.err0, h.intr0⟩] at hc
        exact Option.noConfusion hc
      · rw [hs]
        refine ⟨h.total_eq, h.err0, h.term0, h.intr0, ?_, fun n _ => rfl, ?_,
          h.no_bad_exit, ?_, h.nil_queue, h.streaming_pos, ?_, h.supp_q, h.supp_w⟩
        · intro hp2
          exact absurd hp2 (by simp)
        · intro w hm hex
          rfl
        · intro _ hall
          cases hwk : s.workers with
          | nil => exact h.nil_queue hwk
          | cons w ws =>
              have hex := hall w (by rw [hwk]; exact List.mem_cons_self w ws)
              have hdr := h.exit_drop w (by rw [hwk]; exact List.mem_cons_self w ws) hex
              exact absurd (h.run_nodrop hp) (by rw [hdr]; simp)
        · intro r hr
          exact absurd hr (by simp)
  | joinAll refreshOk =>
      have hro : refreshOk = true := hg
      subst hro
      rcases step_shape_joinAll s true with hs | ⟨n, hp, hall, hpan, hs⟩ |
        ⟨n, s2, _, _, _, hc, hs⟩ | ⟨n, result, hp, hall, hpan, hc, hok, hPr, hWk,
          hQu, hFl, hTd, hTm, hEc, hIp, hSd⟩
      · rw [hs]; exact h
      · rw [anyPanickedB_eq_false s h.no_bad_exit] at hpan
        exact Bool.noConfusion hpan
      · rw [checkForError_none_iff.mpr ⟨h.err0, h.intr0⟩] at hc
        exact Option.noConfusion hc
      · have hallP := (allExitedB_iff s).mp hall
        have hqnil : s.queue = [] := h.drained (h.fin_drop n hp) hallP
        have hsum : sumTotals s = s.total_docs := by
          rw [h.total_eq]
          unfold docsIn sumTotals
          rw [exited_docsIn_sum s.workers hallP, hqnil]
          simp
        have hres2 : result = .ok (sumTotals s) := hok rfl
        refine ⟨?_, by rw [hEc, h.err0], by rw [hTm, h.term0], by rw [hIp, h.intr0],
          ?_, ?_, ?_, ?_, ?_, ?_, ?_, ?_, ?_, ?_⟩
        · rw [hTd]
          unfold docsIn
          rw [hWk, hQu]
          exact h.total_eq
        · intro hp2
          rw [hPr] at hp2
          exact absurd hp2 (by simp)
        · intro n2 hp2
          rw [hPr] at hp2
          exact absurd hp2 (by simp)
        · intro w hm hex
          rw [hWk] at hm
          rw [hSd]
          exact h.exit_drop w hm hex
        · intro w hm
          rw [hWk] at hm
          exact h.no_bad_exit w hm
        · intro _ _
          rw [hQu]
          exact hqnil
        · intro hnil
          rw [hWk] at hnil
          rw [hQu]
          exact h.nil_queue hnil
        · intro w hm docs hph
          rw [hWk] at hm
          exact h.streaming_pos w hm docs hph
        · intro r hr
          rw [hPr, hres2] at hr
          injection hr with hr
          injection hr with hr
          rw [hTd, ← hr]
          exact hsum
        · intro c hc2
          rw [hQu] at hc2
          exact h.supp_q c hc2
        · intro w hm
          rw [hWk] at hm
          exact h.supp_w w hm

theorem ginv_run (cfg : Config) (evs : List Ev)
    (hg : ∀ e ∈ evs, goodEv e = true) : GInv (run cfg evs) := by
  unfold run
  have hfold : ∀ (l : List Ev) (s : Handler), GInv s → (∀ e ∈ l, goodEv e = true) →
      GInv (l.foldl step s) := by
    intro l
    induction l with
    | nil => intro s hs _; exact hs
    | cons e l ih =>
        intro s hs hg2
        exact ih _ (ginv_step s e hs (hg2 e (List.mem_cons_self e l)))
          (fun e2 hm => hg2 e2 (List.mem_cons_of_mem e hm))
  exact hfold evs _ (ginv_new cfg) hg

/-- C1: on every schedule free of transport/indexing failures, termination
requests, host interrupts and refresh failures, whose mutating calls are
encodable commands (inserts, or updates — which serialize identically), if
`finish()` returns `Ok r` then `r` equals `total_docs`, the number of mutating
calls accepted by the coordinator — i.e. `documentsIndexed == N`, where the
value returned is by construction the sum over all spawned workers of the
documents each serialized and successfully submitted. -/
theorem c1_finish_counts (cfg : Config) (evs : List Ev) (r : Nat)
    (hg : ∀ e ∈ evs, goodEv e = true)
    (hf : (run cfg evs).producer = .finished (.ok r)) :
    r = (run cfg evs).total_docs :=
  (ginv_run cfg evs hg).fin_val r hf

/-- C1 witness: three inserts, one worker, one batch of three documents;
`finish()` returns `Ok 3` and the theorem yields `3 = total_docs`. -/
theorem c1_finish_counts_witness :
    3 = (run ⟨0, 1, 8388608, true, .immediate⟩
      [.queueCommand (insCmd 1), .queueCommand (insCmd 2), .queueCommand (insCmd 3),
       .callFinish, .getFirst 0, .serializeFirst 0, .recvSerialize 0, .recvSerialize 0,
       .submitOk 0, .getFirst 0, .joinAll true]).total_docs :=
  c1_finish_counts ⟨0, 1, 8388608, true, .immediate⟩
    [.queueCommand (insCmd 1), .queueCommand (insCmd 2), .queueCommand (insCmd 3),
     .callFinish, .getFirst 0, .serializeFirst 0, .recvSerialize 0, .recvSerialize 0,
     .submitOk 0, .getFirst 0, .joinAll true] 3 (by decide) (by decide)


/-- C7 amended: when a mutating call reaches `queue_command` (producer alive,
`check_for_error` passed), a new worker is spawned iff no worker was ever
spawned, or the number of workers spawned so far (`threads.len()`, including
exited ones) is below the concurrency limit and the backlog exceeds
`10_000 / concurrency`; otherwise the command is pushed onto the bounded queue
when it has room, and the call blocks (does not complete) when it is full. -/
theorem c7_spawn_decision (s : Handler) (c : BulkRequestCommand)
    (hp : s.producer = .running) (hc : checkForError s = none) :
    ((step s (.queueCommand c)).workers.length = s.workers.length + 1 ↔
      (s.workers.length = 0 ∨
        (s.workers.length < s.concurrency ∧ 10000 / s.concurrency < s.queue.length))) ∧
    (¬ spawnCond s → s.queue.length < s.queue_capacity →
      step s (.queueCommand c) =
        { s with queue := s.queue ++ [c], total_docs := s.total_docs + 1 }) ∧
    (¬ spawnCond s → ¬ s.queue.length < s.queue_capacity →
      step s (.queueCommand c) = s) := by
  rcases step_shape_queueCommand s c with ⟨hns, _⟩ | ⟨s2, _, hc2, _⟩ |
    ⟨_, _, hcond, hs⟩ | ⟨_, _, hcond, hlen, hs⟩ | ⟨_, _, hcond, hlen, hs⟩
  · exact absurd hp hns
  · rw [hc] at hc2
    exact Option.noConfusion hc2
  · refine ⟨?_, fun hnc _ => absurd hcond hnc, fun hnc _ => absurd hcond hnc⟩
    rw [hs]
    exact iff_of_true (by simp [spawnWorker]) hcond
  · refine ⟨?_, fun _ _ => hs, fun _ hnl => absurd hlen hnl⟩
    rw [hs]
    exact iff_of_false (by simp) hcond
  · refine ⟨?_, fun _ hl => absurd hl hlen, fun _ _ => hs⟩
    rw [hs]
    exact iff_of_false (by simp) hcond

/-- C7 witness: the spawn-decision theorem applied at the freshly constructed
coordinator (no worker exists yet, so the first mutating call spawns). -/
theorem c7_spawn_decision_witness :
    (step (Handler.new ⟨0, 2, 8388608, true, .immediate⟩)
        (.queueCommand (insCmd 1))).workers.length =
      (Handler.new ⟨0, 2, 8388608, true, .immediate⟩).workers.length + 1 ↔
    ((Handler.new ⟨0, 2, 8388608, true, .immediate⟩).workers.length = 0 ∨
      ((Handler.new ⟨0, 2, 8388608, true, .immediate⟩).workers.length <
          (Handler.new ⟨0, 2, 8388608, true, .immediate⟩).concurrency ∧
        10000 / (Handler.new ⟨0, 2, 8388608, true, .immediate⟩).concurrency <
          (Handler.new ⟨0, 2, 8388608, true, .immediate⟩).queue.length)) :=
  (c7_spawn_decision (Handler.new ⟨0, 2, 8388608, true, .immediate⟩) (insCmd 1)
    (by decide) (by decide)).1

/-- Pushing k commands in a row: with one spawned worker, concurrency 2 and the
backlog staying at or below the 10000/2 threshold, every call takes the
queue-push branch. -/
theorem run_push_replicate : ∀ (k : Nat) (s : Handler) (c : BulkRequestCommand),
    s.producer = .running → s.error_channel = 0 → s.interrupt_pending = false →
    s.workers.length = 1 → s.concurrency = 2 → s.queue_capacity = 10000 →
    s.queue.length + k ≤ 5001 →
    (List.replicate k (Ev.queueCommand c)).foldl step s =
      { s with queue := s.queue ++ List.replicate k c,
               total_docs := s.total_docs + k } := by
  intro k
  induction k with
  | zero =>
      intro s c _ _ _ _ _ _ _
      simp
  | succ k ih =>
      intro s c hp he hi hw hcc hcap hlen
      rw [List.replicate_succ, List.foldl_cons]
      have hstep : step s (.queueCommand c) =
          { s with queue := s.queue ++ [c], total_docs := s.total_docs + 1 } := by
        rcases step_shape_queueCommand s c with ⟨hns, _⟩ | ⟨s2, _, hc2, _⟩ |
          ⟨_, _, hcond, _⟩ | ⟨_, _, _, _, hs⟩ | ⟨_, _, hcond, hlen2, _⟩
        · exact absurd hp hns
        · rw [checkForError_none_iff.mpr ⟨he, hi⟩] at hc2
          exact Option.noConfusion hc2
        · exfalso
          unfold spawnCond at hcond
          rcases hcond with h0 | ⟨_, hgt⟩
          · omega
          · rw [hcc] at hgt
            norm_num at hgt
            omega
        · exact hs
        · exfalso
          rw [hcap] at hlen2
          omega
      rw [hstep]
      have hih := ih { s with queue := s.queue ++ [c], total_docs := s.total_docs + 1 } c
        hp he hi hw hcc hcap
        (by show (s.queue ++ [c]).length + k ≤ 5001
            rw [List.length_append, List.length_singleton]
            omega)
      rw [hih]
      have hqe : (s.queue ++ [c]) ++ List.replicate k c =
          s.queue ++ List.replicate (k + 1) c := by
        rw [List.append_assoc, List.singleton_append, ← List.replicate_succ]
      have hte : s.total_docs + 1 + k = s.total_docs + (k + 1) := by omega
      rw [hqe, hte]

def cfgC7 : Config := ⟨0, 2, 8388608, true, .immediate⟩

/-- The counterexample schedule for the spawn rule: spawn one worker, queue
5001 commands, spawn the second worker, terminate, let both workers exit. -/
def evsC7 : List Ev :=
  [Ev.queueCommand (insCmd 0)] ++ List.replicate 5001 (Ev.queueCommand (insCmd 0)) ++
  [Ev.queueCommand (insCmd 0), Ev.terminateNow, Ev.getFirst 0, Ev.getFirst 1]

def c7s0 : Handler :=
  { terminatd := false, interrupt_pending := false, queue := [],
    queue_capacity := 10000,
    workers := [{ phase := .atLoopTop (some (insCmd 0)), total_docs_out := 0 }],
    in_flight := 0, active_threads := 1, successful_requests := 0,
    error_channel := 0, error_capacity := 2, sender_dropped := false,
    producer := .running, total_docs := 1, refresh_calls := 0,
    concurrency := 2, batch_size := 8388608, allow_refresh := true,
    refresh_interval := .immediate }

def c7s1 : Handler :=
  { terminatd := false, interrupt_pending := false,
    queue := List.replicate 5001 (insCmd 0), queue_capacity := 10000,
    workers := [{ phase := .atLoopTop (some (insCmd 0)), total_docs_out := 0 }],
    in_flight := 0, active_threads := 1, successful_requests := 0,
    error_channel := 0, error_capacity := 2, sender_dropped := false,
    producer := .running, total_docs := 5002, refresh_calls := 0,
    concurrency := 2, batch_size := 8388608, allow_refresh := true,
    refresh_interval := .immediate }

def c7s2 : Handler :=
  { terminatd := false, interrupt_pending := false,
    queue := List.replicate 5001 (insCmd 0), queue_capacity := 10000,
    workers := [{ phase := .atLoopTop (some (insCmd 0)), total_docs_out := 0 },
                { phase := .atLoopTop (some (insCmd 0)), total_docs_out := 0 }],
    in_flight := 0, active_threads := 2, successful_requests := 0,
    error_channel := 0, error_capacity := 2, sender_dropped := false,
    producer := .running, total_docs := 5003, refresh_calls := 0,
    concurrency := 2, batch_size := 8388608, allow_refresh := true,
    refresh_interval := .immediate }

def c7s3 : Handler :=
  { c7s2 with terminatd := true }

def c7s4 : Handler :=
  { c7s3 with workers := [{ phase := .exited .normal, total_docs_out := 0 },
                         { phase := .atLoopTop (some (insCmd 0)), total_docs_out := 0 }],
              active_threads := 1 }

def c7s5 : Handler :=
  { c7s4 with workers := [{ phase := .exited .normal, total_docs_out := 0 },
                         { phase := .exited .normal, total_docs_out := 0 }],
              active_threads := 0 }

theorem c7s1_queue_len : c7s1.queue.length = 5001 := by
  show (List.replicate 5001 (insCmd 0)).length = 5001
  rw [List.length_replicate]

theorem c7_run_eq : run cfgC7 evsC7 = c7s5 := by
  have hA : List.foldl step (Handler.new cfgC7) [Ev.queueCommand (insCmd 0)] = c7s0 := by
    decide
  have hB : (List.replicate 5001 (Ev.queueCommand (insCmd 0))).foldl step c7s0 = c7s1 := by
    rw [run_push_replicate 5001 c7s0 (insCmd 0) rfl rfl rfl rfl rfl rfl (by decide)]
    rfl
  have hC : step c7s1 (.queueCommand (insCmd 0)) = c7s2 := by
    rcases step_shape_queueCommand c7s1 (insCmd 0) with ⟨hns, _⟩ | ⟨s2, _, hc2, _⟩ |
      ⟨_, _, _, hs⟩ | ⟨_, _, hcond, _, _⟩ | ⟨_, _, hcond, _, _⟩
    · exact absurd rfl hns
    · rw [checkForError_none_iff.mpr ⟨rfl, rfl⟩] at hc2
      exact Option.noConfusion hc2
    · exact hs
    · exfalso
      exact hcond (Or.inr ⟨by decide, by rw [c7s1_queue_len]; decide⟩)
    · exfalso
      exact hcond (Or.inr ⟨by decide, by rw [c7s1_queue_len]; decide⟩)
  have hD : step c7s2 .terminateNow = c7s3 := rfl
  have hE : step c7s3 (.getFirst 0) = c7s4 := rfl
  have hF : step c7s4 (.getFirst 1) = c7s5 := rfl
  show evsC7.foldl step (Handler.new cfgC7) = c7s5
  unfold evsC7
  rw [List.foldl_append, List.foldl_append, hA, hB]
  simp only [List.foldl_cons, List.foldl_nil]
  rw [hC, hD, hE, hF]

/-- C7 counterexample: a reachable state in which both spawned workers have
exited (`active_threads = 0 < concurrency = 2`) and the backlog (5001) exceeds
`queue_capacity / concurrency = 5000`, yet the next mutating call does not
spawn a worker — it pushes onto the queue — because `queue_command` counts
workers by `threads.len()` (spawned-ever, here 2 = concurrency), not by the
active-worker count the claim refers to. -/
theorem c7_counterexample :
    (run cfgC7 evsC7).workers.length = 2 ∧
    (run cfgC7 evsC7).workers ≠ [] ∧
    (run cfgC7 evsC7).active_threads = 0 ∧
    (run cfgC7 evsC7).concurrency = 2 ∧
    (run cfgC7 evsC7).queue_capacity = 10000 ∧
    10000 / (run cfgC7 evsC7).concurrency < (run cfgC7 evsC7).queue.length ∧
    (step (run cfgC7 evsC7) (.queueCommand (insCmd 0))).workers.length =
      (run cfgC7 evsC7).workers.length ∧
    (step (run cfgC7 evsC7) (.queueCommand (insCmd 0))).total_docs =
      (run cfgC7 evsC7).total_docs + 1 ∧
    (step (run cfgC7 evsC7) (.queueCommand (insCmd 0))).queue.length =
      (run cfgC7 evsC7).queue.length + 1 := by
  rw [c7_run_eq]
  have hqlen : c7s5.queue.length = 5001 := by
    show (List.replicate 5001 (insCmd 0)).length = 5001
    rw [List.length_replicate]
  have hG : step c7s5 (.queueCommand (insCmd 0)) =
      { c7s5 with queue := c7s5.queue ++ [insCmd 0],
                  total_docs := c7s5.total_docs + 1 } := by
    rcases step_shape_queueCommand c7s5 (insCmd 0) with ⟨hns, _⟩ | ⟨s2, _, hc2, _⟩ |
      ⟨_, _, hcond, _⟩ | ⟨_, _, _, _, hs⟩ | ⟨_, _, _, hlen, _⟩
    · exact absurd rfl hns
    · rw [checkForError_none_iff.mpr ⟨rfl, rfl⟩] at hc2
      exact Option.noConfusion hc2
    · exfalso
      rcases hcond with h0 | ⟨hlt, _⟩
      · exact absurd h0 (by decide)
      · exact absurd hlt (by decide)
    · exact hs
    · exfalso
      exact hlen (by rw [hqlen]; decide)
  rw [hG]
  refine ⟨rfl, by decide, rfl, rfl, rfl, ?_, rfl, rfl, ?_⟩
  · rw [hqlen]
    decide
  · show (c7s5.queue ++ [insCmd 0]).length = c7s5.queue.length + 1
    rw [List.length_append, List.length_singleton]
